import Mathlib

/-!
Shallow embedding of the tunisafka backend core (menu normalization,
daily file cache, menu service orchestration, scraping fallback and
random selection), translated from the JavaScript sources under
`src/backend/src` and the service files (`ScrapingService`,
`RandomSelectionService`, `ScrapingResult`).

JavaScript strings are modelled as Lean `String`; `toLowerCase`,
`trim`, `startsWith` and `includes` are re-implemented over the
character lists so their behaviour on the data handled by the app is
captured exactly (`toLowerCase` is modelled on ASCII plus the Latin-1
letters that occur in the source data).  Machine numbers that the code
only ever uses as exact monetary cents or counters are modelled as
`Nat`.  Fallible constructors (the model classes throw on invalid
data) return `Except String`.  File-system effects are modelled by an
explicit cache-state record threaded through the operations, with
injected failure outcomes for the write/rename steps.
-/

namespace Tunisafka

/-- Characters treated as whitespace by the embedded `trim`
(space, tab, newline, carriage return, vertical tab, form feed, NBSP). -/
def wsChar (c : Char) : Bool :=
  c = ' ' || c = '\t' || c = '\n' || c = '\r' || c.toNat = 11 || c.toNat = 12 || c.toNat = 160

/-- Generic first-match association-list lookup. -/
def assocL {α β : Type} [DecidableEq α] : List (α × β) → α → Option β
  | [], _ => none
  | (k, v) :: rest, c => if c = k then some v else assocL rest c

/-- Uppercase/lowercase letter pairs for the embedded `toLowerCase`:
ASCII `A`-`Z` plus the Latin-1 capitals `Ä` `Ö` `Å` that occur in the
Finnish source data. -/
def upperLowerPairs : List (Char × Char) :=
  ("ABCDEFGHIJKLMNOPQRSTUVWXYZÄÖÅ".data).zip ("abcdefghijklmnopqrstuvwxyzäöå".data)

/-- Lowercases a single character (embedded `toLowerCase`, per character). -/
def lowerChar (c : Char) : Char :=
  (assocL upperLowerPairs c).getD c

/-- Embedded `String.prototype.toLowerCase`. -/
def jsLower (s : String) : String :=
  ⟨s.data.map lowerChar⟩

/-- Drops leading whitespace characters. -/
def trimFront (l : List Char) : List Char :=
  l.dropWhile wsChar

/-- Drops trailing whitespace characters. -/
def trimBack (l : List Char) : List Char :=
  ((l.reverse).dropWhile wsChar).reverse

/-- Embedded `String.prototype.trim`. -/
def jsTrim (s : String) : String :=
  ⟨trimBack (trimFront s.data)⟩

/-- Boolean test that one character list starts with another. -/
def isPrefixList : List Char → List Char → Bool
  | [], _ => true
  | _ :: _, [] => false
  | a :: as, b :: bs => if a = b then isPrefixList as bs else false

/-- Embedded `s.startsWith(p)`. -/
def jsStartsWith (s p : String) : Bool :=
  isPrefixList p.data s.data

/-- Embedded `s.includes(c)` for a single-character needle. -/
def jsIncludesChar (s : String) (c : Char) : Bool :=
  s.data.contains c

/-- Numeric value of a decimal digit character. -/
def digitVal (c : Char) : Nat := c.toNat - 48

/-- Reads a digit run as a natural number. -/
def digitsToNat (l : List Char) : Nat :=
  l.foldl (fun acc c => acc * 10 + digitVal c) 0

/-- Scans for the first match of the price pattern
`(\d+(?:\.\d{2})?)` from `MenuItem.getPriceNumeric` and returns the
matched value in exact cents: the first maximal digit run, extended by
`.dd` when a dot followed by at least two digits comes right after it. -/
def priceScan : List Char → Option Nat
  | [] => none
  | c :: rest =>
    if c.isDigit then
      let ds := List.takeWhile Char.isDigit (c :: rest)
      let after := List.dropWhile Char.isDigit (c :: rest)
      let frac :=
        match after with
        | '.' :: d1 :: d2 :: _ =>
          if d1.isDigit && d2.isDigit then digitVal d1 * 10 + digitVal d2 else 0
        | _ => 0
      some (digitsToNat ds * 100 + frac)
    else priceScan rest

/-- Embedded `MenuItem.getPriceNumeric`, in exact cents (`0` when no
numeric value can be extracted, matching `parseFloat` on the matched
group, which is exact for the `d+.dd` shapes the pattern admits). -/
def getPriceNumericCents (price : String) : Nat :=
  (priceScan price.data).getD 0

/-- Left-pads a number below 100 to two digits. -/
def pad2 (n : Nat) : String :=
  if n < 10 then "0" ++ toString n else toString n

/-- Renders exact cents the way `toFixed(2)` renders the extracted
price values. -/
def renderCents (cents : Nat) : String :=
  toString (cents / 100) ++ "." ++ pad2 (cents % 100)

/-- Price-standardisation step of `MenuService.enrichMenuItem`: a
non-empty price without a `€` sign is replaced by `€X.XX` when a
positive numeric value can be extracted. -/
def enrichPrice (p : String) : String :=
  if p = "" then p
  else if jsIncludesChar p '€' then p
  else if 0 < getPriceNumericCents p then "€" ++ renderCents (getPriceNumericCents p)
  else p

/-- Synonym table of `MenuService.standardizeDietaryInfo`. -/
def dietaryMap : List (String × String) :=
  [("veg", "vegetarian"), ("veggie", "vegetarian"), ("plant-based", "vegan"),
   ("gluten free", "gluten-free"), ("gluteeniton", "gluten-free"),
   ("dairy free", "dairy-free"), ("laktoositon", "dairy-free"), ("luomu", "organic")]

/-- Synonym table of `MenuService.standardizeAllergenInfo`. -/
def allergenMap : List (String × String) :=
  [("gluten", "contains gluten"), ("wheat", "contains gluten"), ("vehnä", "contains gluten"),
   ("milk", "contains dairy"), ("dairy", "contains dairy"), ("maito", "contains dairy"),
   ("nuts", "contains nuts"), ("pähkinä", "contains nuts"),
   ("egg", "contains eggs"), ("muna", "contains eggs"),
   ("fish", "contains fish"), ("kala", "contains fish"),
   ("soy", "contains soy"), ("soja", "contains soy")]

/-- Per-tag mapping step of `standardizeDietaryInfo`:
`standardMap[item.toLowerCase().trim()] || normalized`, restricted to
the own keys of the table (string results).  The property read also
reaches the `Object.prototype` members inherited by the object
literal; that full behaviour, including the resulting non-string
values, is modelled by `dietNormJs` below, and this restriction agrees
with it exactly on tags whose normalized form misses the prototype
chain. -/
def dietNorm (s : String) : String :=
  (assocL dietaryMap (jsTrim (jsLower s))).getD (jsTrim (jsLower s))

/-- Per-tag mapping step of `standardizeAllergenInfo`:
the synonym table, else the original tag with a `contains ` marker
added unless already present.  Like `dietNorm` this is the own-key
restriction of the property read; the `Object.prototype` hits are
modelled by `allergNormJs` below. -/
def allergNorm (s : String) : String :=
  match assocL allergenMap (jsTrim (jsLower s)) with
  | some v => v
  | none => if jsStartsWith s "contains" then s else "contains " ++ s

/-- First-occurrence deduplication with an accumulator of already-seen
values; mirrors the `array.indexOf(item) === index` filter. -/
def dedupFirstAux (seen : List String) : List String → List String
  | [] => []
  | a :: l => if seen.contains a then dedupFirstAux seen l else a :: dedupFirstAux (a :: seen) l

/-- First-occurrence deduplication, preserving order. -/
def dedupFirst (l : List String) : List String :=
  dedupFirstAux [] l

/-- Shared map / dedupe / drop-empties pipeline used by both tag
standardisation functions. -/
def tagPipeline (f : String → String) (l : List String) : List String :=
  (dedupFirst (l.map f)).filter (fun s => decide (0 < s.length))

/-- Embedded `MenuService.standardizeDietaryInfo`. -/
def standardizeDietaryInfo (dietary : List String) : List String :=
  tagPipeline dietNorm dietary

/-- Embedded `MenuService.standardizeAllergenInfo`. -/
def standardizeAllergenInfo (allergens : List String) : List String :=
  tagPipeline allergNorm allergens

/-- Embedded `MenuItem` model data. -/
structure MenuItem where
  id : String
  name : String
  description : String
  price : String
  dietary : List String
  allergens : List String
  availability : String
deriving Repr, DecidableEq

/-- Embedded `MenuService.enrichMenuItem` (price standardisation plus
dietary and allergen standardisation), returning the updated item. -/
def enrichMenuItem (it : MenuItem) : MenuItem :=
  { it with
    price := enrichPrice it.price,
    dietary := standardizeDietaryInfo it.dietary,
    allergens := standardizeAllergenInfo it.allergens }

/-- Blank-string test used by the model validations
(`!x || x.trim().length === 0` rejects the value). -/
def nonBlank (s : String) : Bool :=
  decide (0 < (jsTrim s).length)

/-- One-digit hour alternative of the availability time pattern. -/
def hourOk1 (c : Char) : Bool := c.isDigit

/-- Two-digit hour alternative (`[01]?[0-9]|2[0-3]`). -/
def hourOk2 (h1 h2 : Char) : Bool :=
  ((h1 = '0' || h1 = '1') && h2.isDigit) || (h1 = '2' && ('0' ≤ h2 && h2 ≤ '3'))

/-- Minute part of the availability time pattern (`[0-5][0-9]`). -/
def minuteOk (m1 m2 : Char) : Bool :=
  ('0' ≤ m1 && m1 ≤ '5') && m2.isDigit

/-- Full-string match of the `HH:MM` pattern
`^([01]?[0-9]|2[0-3]):[0-5][0-9]$` from `Menu.isValidAvailability`. -/
def timeRegexCheck : List Char → Bool
  | [h, ':', m1, m2] => hourOk1 h && minuteOk m1 m2
  | [h1, h2, ':', m1, m2] => hourOk2 h1 h2 && minuteOk m1 m2
  | _ => false

/-- Weekday names accepted by `Menu.isValidAvailability`. -/
def validDays : List String :=
  ["monday", "tuesday", "wednesday", "thursday", "friday", "saturday", "sunday"]

/-- Embedded menu availability window. -/
structure Availability where
  startTime : String
  endTime : String
  days : List String
deriving Repr, DecidableEq

/-- Embedded `Menu.isValidAvailability`: empty time strings skip the
time-format check, and every day name must (lowercased) be a weekday
name. -/
def isValidAvailability (a : Availability) : Bool :=
  (a.startTime = "" || timeRegexCheck a.startTime.data) &&
  (a.endTime = "" || timeRegexCheck a.endTime.data) &&
  a.days.all (fun d => validDays.contains (jsLower d))

/-- Embedded `Menu` model data.  Items are the processed `MenuItem`
values; `availability` is `none` when the menu has no window. -/
structure Menu where
  id : String
  title : String
  description : String
  items : List MenuItem
  availability : Option Availability
  lastUpdated : String
  isSelected : Bool
deriving Repr, DecidableEq

/-- Embedded `Menu.validate`: non-blank id and title, and a valid
availability window when one is present (`items` only has to be an
array, which the list type guarantees). -/
def menuValidate (m : Menu) : Bool :=
  nonBlank m.id && nonBlank m.title &&
  (match m.availability with
   | none => true
   | some a => isValidAvailability a)

/-- Embedded `MenuItem.validate`: non-blank id and name (the remaining
checks are type checks the embedding guarantees). -/
def menuItemValidate (it : MenuItem) : Bool :=
  nonBlank it.id && nonBlank it.name

/-- Character class `[a-z0-9]` of the slug pattern. -/
def isSlugChar (c : Char) : Bool :=
  ('a' ≤ c && c ≤ 'z') || ('0' ≤ c && c ≤ '9')

/-- Replaces every maximal run of non-slug characters by a single
dash, as `replace(/[^a-z0-9]+/g, '-')` does; the flag records whether
the previous character already belongs to a dashed run. -/
def slugifyAux (prevDash : Bool) : List Char → List Char
  | [] => []
  | c :: rest =>
    if isSlugChar c then c :: slugifyAux false rest
    else if prevDash then slugifyAux true rest
    else '-' :: slugifyAux true rest

/-- Replaces every maximal run of non-slug characters by a single
dash, as `replace(/[^a-z0-9]+/g, '-')` does. -/
def slugify (l : List Char) : List Char :=
  slugifyAux false l

/-- Removes leading and trailing dashes, as `replace(/^-+|-+$/g, '')`. -/
def stripDashes (l : List Char) : List Char :=
  ((l.dropWhile (fun c => c = '-')).reverse.dropWhile (fun c => c = '-')).reverse

/-- Embedded `Menu.generateId` / `MenuItem.generateId`: lowercase,
dash out the non-alphanumeric runs, strip outer dashes. -/
def generateId (title : String) : String :=
  ⟨stripDashes (slugify (jsLower title).data)⟩

/-- Raw item data as handed to `MenuItem.fromScrapedData` (absent
fields are modelled by the empty string / empty list they default to). -/
structure ScrapedItemData where
  id : String
  name : String
  description : String
  price : String
  dietary : List String
  allergens : List String
  availability : String
deriving Repr, DecidableEq

/-- Embedded `MenuItem.fromScrapedData`: derive a slug id when none is
given, then run the constructor validation. -/
def MenuItem.fromScrapedData (d : ScrapedItemData) : Except String MenuItem :=
  let it : MenuItem :=
    { id := if d.id = "" then generateId d.name else d.id,
      name := d.name, description := d.description, price := d.price,
      dietary := d.dietary, allergens := d.allergens, availability := d.availability }
  if menuItemValidate it then .ok it
  else .error "MenuItem validation failed"

/-- Item input of the processing pipeline: either an existing
`MenuItem` instance or raw scraped data (the `instanceof` dispatch in
`processMenuItem`). -/
inductive RawItem where
  | inst (it : MenuItem)
  | raw (d : ScrapedItemData)
deriving Repr, DecidableEq

/-- Embedded `MenuService.processMenuItem`: build the instance if
needed, enrich it, re-validate; any failure yields `none`
(log-and-skip). -/
def processMenuItem (ri : RawItem) : Option MenuItem :=
  match (match ri with
         | .inst it => Except.ok it
         | .raw d => MenuItem.fromScrapedData d) with
  | .error _ => none
  | .ok it0 =>
    let it1 := enrichMenuItem it0
    if menuItemValidate it1 then some it1 else none

/-- Embedded `MenuService.processMenuItems` (map then drop the
failures). -/
def processMenuItems (l : List RawItem) : List MenuItem :=
  l.filterMap processMenuItem

/-- Raw menu data as handed to `Menu.fromScrapedData` by the service
pipeline; the items may themselves be instances or raw data. -/
structure ScrapedMenuData where
  id : String
  title : String
  description : String
  items : List RawItem
  availability : Option Availability
deriving Repr, DecidableEq

/-- Menu input of the processing pipeline: an existing `Menu` instance
or raw scraped data (the `instanceof` dispatch in `processMenu`). -/
inductive RawMenu where
  | inst (m : Menu)
  | raw (d : ScrapedMenuData)
deriving Repr, DecidableEq

/-- Embedded `MenuService.processMenu`: obtain a validated instance
(`Menu.fromScrapedData` for raw data, whose constructor validation
only inspects id / title / availability), replace the items by the
processed items, re-validate; any failure yields `none`. -/
def processMenu (now : String) : RawMenu → Option Menu
  | .inst m =>
    let m1 := { m with items := processMenuItems (m.items.map RawItem.inst) }
    if menuValidate m1 then some m1 else none
  | .raw d =>
    let m0 : Menu :=
      { id := if d.id = "" then generateId d.title else d.id,
        title := d.title, description := d.description, items := [],
        availability := d.availability, lastUpdated := now, isSelected := false }
    if menuValidate m0 then
      let m1 := { m0 with items := processMenuItems d.items }
      if menuValidate m1 then some m1 else none
    else none

/-- Index-aware second pass of `processMenus`: a menu whose id is
falsy or the literal string `undefined` receives the sequential
fallback id `menu-<index+1>`. -/
def assignFallbackIds (l : List Menu) : List Menu :=
  l.enum.map (fun p =>
    if p.2.id = "" || p.2.id = "undefined" then
      { p.2 with id := "menu-" ++ toString (p.1 + 1) }
    else p.2)

/-- Embedded `MenuService.processMenus`: process each raw menu, drop
the failures, then assign fallback ids. -/
def processMenus (now : String) (rawMenus : List RawMenu) : List Menu :=
  assignFallbackIds (rawMenus.filterMap (processMenu now))

/-- Embedded `Menu.clone`: a fresh record carrying the same field
values (the array and object spreads produce equal values). -/
def Menu.clone (m : Menu) : Menu :=
  { id := m.id, title := m.title, description := m.description,
    items := m.items, availability := m.availability,
    lastUpdated := m.lastUpdated, isSelected := m.isSelected }

/-- Embedded `Menu.setSelected`. -/
def Menu.setSelected (m : Menu) (b : Bool) : Menu :=
  { m with isSelected := b }

/-- Embedded `ScrapingResult` model data. -/
structure ScrapingResult where
  timestamp : String
  success : Bool
  menusFound : Nat
  source : String
  error : Option String
  duration : Nat
deriving Repr, DecidableEq

/-- JavaScript truthiness of the nullable `error` string. -/
def truthyOptStr : Option String → Bool
  | none => false
  | some s => !(s = "")

/-- Embedded `ScrapingResult.validate` (the type checks hold by
construction; the business rules tie `success`, `menusFound` and
`error` together). -/
def scrapingResultValidate (r : ScrapingResult) : Bool :=
  !(r.timestamp = "") &&
  !(!r.success && decide (0 < r.menusFound)) &&
  !(!r.success && !truthyOptStr r.error) &&
  !(r.success && truthyOptStr r.error)

/-- Validating constructor of `ScrapingResult`. -/
def mkScrapingResult (r : ScrapingResult) : Except String ScrapingResult :=
  if scrapingResultValidate r then .ok r
  else .error "ScrapingResult validation failed"

/-- Embedded `ScrapingResult.createSuccess`. -/
def createSuccess (menusFound : Nat) (source : String) (duration : Nat)
    (timestamp : String) : Except String ScrapingResult :=
  mkScrapingResult
    { timestamp, success := true, menusFound, source, error := none, duration }

/-- Embedded `ScrapingResult.createFailure`. -/
def createFailure (error : String) (source : String) (duration : Nat)
    (timestamp : String) : Except String ScrapingResult :=
  mkScrapingResult
    { timestamp, success := false, menusFound := 0, source, error := some error, duration }

/-- Defaulting `result.error || 'Unknown scraping error'`. -/
def errOrUnknown : Option String → String
  | none => "Unknown scraping error"
  | some e => if e = "" then "Unknown scraping error" else e

/-- Stands in for `Date.toISOString` in the model: an injective,
never-empty rendering of the epoch milliseconds. -/
def isoTimestamp (ms : Nat) : String :=
  toString ms ++ "Z"

/-- Embedded `ScrapingResult.fromScrapingOperation` over epoch
milliseconds (`t0` start, `t1` end). -/
def fromScrapingOperation (t0 t1 : Nat) (success : Bool) (menusFound : Nat)
    (error : Option String) (source : String) : Except String ScrapingResult :=
  if success then createSuccess menusFound source (t1 - t0) (isoTimestamp t1)
  else createFailure (errOrUnknown error) source (t1 - t0) (isoTimestamp t1)

/-- Source site of the scraper. -/
def sourceUrl : String := "https://unisafka.fi/tty/"

/-- Embedded `ScrapingService.createHertsiMenu`. -/
def createHertsiMenu (now : String) : Except String Menu := do
  let i1 ← MenuItem.fromScrapedData ⟨"", "FROM THE FIELD-VEGAN",
    "Chili-roasted butternut squash, organic beans, and rice, hummus made from organic chickpeas, and roasted peanuts",
    "€3.50", ["G", "M"], [], ""⟩
  let i2 ← MenuItem.fromScrapedData ⟨"", "From our favorites 1",
    "Pea Soup and Pancakes for dessert", "€3.50", ["1KPL/PCANN.", "L"], [], ""⟩
  let i3 ← MenuItem.fromScrapedData ⟨"", "From our favorites 2",
    "Chicken Mac&Cheese and warm vegetables", "€3.50", ["L"], [], ""⟩
  let i4 ← MenuItem.fromScrapedData ⟨"", "FROM THE SOUP BOWL",
    "Spicy tomato Soup", "€3.50", ["G", "M"], [], ""⟩
  let i5 ← MenuItem.fromScrapedData ⟨"", "From our bakery",
    "Baquette lunch from Café Bitti", "€3.50", ["M"], [], ""⟩
  let i6 ← MenuItem.fromScrapedData ⟨"", "From the garden",
    "Chicken&Taco salad from Café Bitti", "€3.50", ["VL"], [], ""⟩
  let i7 ← MenuItem.fromScrapedData ⟨"", "FROM THE SWEET",
    "Blueberry Quark", "€3.50", ["G", "L"], [], ""⟩
  let m : Menu :=
    { id := generateId "Hertsi", title := "Hertsi",
      description := "FROM THE FIELD-VEGAN - Chili-roasted butternut squash, organic beans, and rice, hummus made from organic chickpeas, and roasted peanuts",
      items := [i1, i2, i3, i4, i5, i6, i7],
      availability := some ⟨"10:30", "14:00", ["monday", "tuesday", "wednesday", "thursday", "friday"]⟩,
      lastUpdated := now, isSelected := false }
  if menuValidate m then .ok m else .error "Menu validation failed"

/-- Embedded `ScrapingService.createNewtonMenu`. -/
def createNewtonMenu (now : String) : Except String Menu := do
  let i1 ← MenuItem.fromScrapedData ⟨"", "LUNCH",
    "Pea soup with pork meat", "€3.50", ["*", "G", "M", "MU"], [], ""⟩
  let i2 ← MenuItem.fromScrapedData ⟨"", "Onion",
    "Fresh onion side", "€3.50", ["*", "G", "KASV", "VEG"], [], ""⟩
  let i3 ← MenuItem.fromScrapedData ⟨"", "Pancake",
    "Traditional Finnish pancake", "€2.50", [], [], ""⟩
  let i4 ← MenuItem.fromScrapedData ⟨"", "Strawberry Jam",
    "Sweet strawberry jam for pancakes", "€3.50", ["G", "KASV", "M", "MU", "VEG"], [], ""⟩
  let i5 ← MenuItem.fromScrapedData ⟨"", "LUNCH",
    "Chicken Drumsticks", "€3.50", ["G", "M", "MU"], [], ""⟩
  let i6 ← MenuItem.fromScrapedData ⟨"", "Chili mayo",
    "Spicy mayonnaise sauce", "€3.50", ["G", "M"], [], ""⟩
  let i7 ← MenuItem.fromScrapedData ⟨"", "Boiled Potatoes",
    "Traditional boiled potatoes", "€3.50", ["*", "G", "KASV", "M", "MU", "VEG"], [], ""⟩
  let i8 ← MenuItem.fromScrapedData ⟨"", "Whole Grain Rice",
    "Healthy whole grain rice", "€3.50", ["*", "G", "KASV", "M", "MU", "VEG"], [], ""⟩
  let i9 ← MenuItem.fromScrapedData ⟨"", "Warm Vegetable Mix",
    "Seasonal warm vegetables", "€3.50", ["*", "G", "KASV", "M", "MU", "VEG"], [], ""⟩
  let m : Menu :=
    { id := generateId "Newton", title := "Newton",
      description := "Traditional Finnish lunch with pea soup, pancakes, and hearty main courses",
      items := [i1, i2, i3, i4, i5, i6, i7, i8, i9],
      availability := some ⟨"11:00", "14:00", ["monday", "tuesday", "wednesday", "thursday", "friday"]⟩,
      lastUpdated := now, isSelected := false }
  if menuValidate m then .ok m else .error "Menu validation failed"

/-- Embedded `ScrapingService.createCafeKonehuoneMenu`. -/
def createCafeKonehuoneMenu (now : String) : Except String Menu := do
  let i1 ← MenuItem.fromScrapedData ⟨"", "FUSION BURGER",
    "Devil\x27s burger", "€3.50", ["MU"], [], ""⟩
  let i2 ← MenuItem.fromScrapedData ⟨"", "French Fries",
    "Crispy golden french fries", "€3.50", ["G", "KASV", "M", "MU", "VEG"], [], ""⟩
  let i3 ← MenuItem.fromScrapedData ⟨"", "FUSION VEGE BURGER",
    "Tofu Burger", "€3.50", ["KASV", "M"], [], ""⟩
  let i4 ← MenuItem.fromScrapedData ⟨"", "STREET FOOD",
    "Minced Meat Corn Stuffing Tortillas", "€3.50", ["*", "M", "MU"], [], ""⟩
  let i5 ← MenuItem.fromScrapedData ⟨"", "STREET FOOD VEGE",
    "Tortillas with Vegetable Bean Filling", "€3.50", ["*", "KASV", "M", "MU", "SIS.LUOMUA", "VEG"], [], ""⟩
  let m : Menu :=
    { id := generateId "Café Konehuone", title := "Café Konehuone",
      description := "Fusion burgers and street food favorites",
      items := [i1, i2, i3, i4, i5],
      availability := some ⟨"10:30", "15:00", ["monday", "tuesday", "wednesday", "thursday", "friday"]⟩,
      lastUpdated := now, isSelected := false }
  if menuValidate m then .ok m else .error "Menu validation failed"

/-- Embedded `ScrapingService.createReaktoriMenu`. -/
def createReaktoriMenu (now : String) : Except String Menu := do
  let i1 ← MenuItem.fromScrapedData ⟨"", "Vegan lunch (Buffet lines 1-4)",
    "Aubergine and tomato stew with gremolata", "€3.50", ["A", "ILM", "KASV", "L", "M", "VEG", "VS"], [], ""⟩
  let i2 ← MenuItem.fromScrapedData ⟨"", "Roasted potatoes",
    "Golden roasted potatoes", "€3.50", ["G", "ILM", "KASV", "L", "M", "VEG"], [], ""⟩
  let i3 ← MenuItem.fromScrapedData ⟨"", "Lunch (Buffet lines 1-4)",
    "meatballs in black pepper sauce *, a, l 6 pc / portion 0,50 € / extra pc",
    "0,50 € / extra pc", ["*", "a", "l"], [], ""⟩
  let i4 ← MenuItem.fromScrapedData ⟨"", "Lunch (Buffet lines 3-4)",
    "portugese-style sausage soup a, l, m, vs, g", "€3.50", ["a", "l", "m", "vs", "g"], [], ""⟩
  let i5 ← MenuItem.fromScrapedData ⟨"", "Vegetable soup (Buffet lines 3-4)",
    "creamy pureed black salsify soup *, a, ilm, l, vs, g", "€3.50",
    ["*", "a", "ilm", "l", "vs", "g", "KASV"], [], ""⟩
  let i6 ← MenuItem.fromScrapedData ⟨"", "Pop Up Grill lunch 10:30 - 13:30",
    "Mildly smoked rainbow trout", "€3.50", ["A", "G", "ILM", "L", "M"], [], ""⟩
  let m : Menu :=
    { id := generateId "Reaktori", title := "Reaktori",
      description := "Buffet-style dining with vegan options and fresh daily specials",
      items := [i1, i2, i3, i4, i5, i6],
      availability := some ⟨"10:30", "13:30", ["monday", "tuesday", "wednesday", "thursday", "friday"]⟩,
      lastUpdated := now, isSelected := false }
  if menuValidate m then .ok m else .error "Menu validation failed"

/-- Embedded `ScrapingService.scrapeMenus` over epoch milliseconds
`t0`/`t1` with an injected internal error `err` (the exception the
try-block may raise).  The catch path builds the hard-coded Hertsi
fallback menu and a failure-flavoured result. -/
def scrapeMenus (t0 t1 : Nat) (err : Option String) :
    Except String (List Menu × ScrapingResult) :=
  let body : Except String (List Menu × ScrapingResult) :=
    match err with
    | some e => .error e
    | none => do
      let m1 ← createHertsiMenu (isoTimestamp t0)
      let m2 ← createNewtonMenu (isoTimestamp t0)
      let m3 ← createCafeKonehuoneMenu (isoTimestamp t0)
      let m4 ← createReaktoriMenu (isoTimestamp t0)
      let dur := max (t1 - t0) 1
      let r ← fromScrapingOperation t0 (t0 + dur) true 4 none sourceUrl
      pure ([m1, m2, m3, m4], r)
  match body with
  | .ok v => .ok v
  | .error e => do
    let m ← createHertsiMenu (isoTimestamp t1)
    let r ← fromScrapingOperation t0 t1 false 0 (some e) sourceUrl
    pure ([m], r)

/-- Embedded `CacheEntry` document. -/
structure CacheEntry where
  date : String
  timestamp : String
  timezone : String
  menuData : List Menu
  scrapingResult : ScrapingResult
  version : String
deriving Repr, DecidableEq

/-- State of the persisted cache file: absent, present but
unreadable/unparseable, or a parseable entry. -/
inductive FileState where
  | absent
  | corrupt
  | entry (e : CacheEntry)
deriving Repr, DecidableEq

/-- Modelled state of a `CacheService` instance together with its
cache directory (`tempFile` is the `daily-menus.json.tmp` artifact). -/
structure CacheState where
  file : FileState
  tempFile : Option CacheEntry
  hits : Nat
  misses : Nat
  lastAccess : Option String
deriving Repr, DecidableEq

/-- Embedded `CacheService.getCurrentDate`.  The `Intl` branch of the
source is unreachable (it queries `Intl.DateTimeFormatter`, which does
not exist), so the reachable system-date fallback is modelled: the
year, the zero-padded month and the zero-padded day joined by dashes. -/
def getCurrentDate (year month day : Nat) : String :=
  toString year ++ "-" ++ pad2 month ++ "-" ++ pad2 day

/-- Embedded `CacheService.isCacheValid`: a falsy stored date is
invalid, otherwise the stored date must equal the current date. -/
def isCacheValid (today : String) (e : CacheEntry) : Bool :=
  if e.date = "" then false else decide (e.date = today)

/-- Embedded `CacheService.createCacheEntry`. -/
def createCacheEntry (today nowIso tz : String) (menuData : List Menu)
    (r : ScrapingResult) : CacheEntry :=
  { date := today, timestamp := nowIso, timezone := tz,
    menuData, scrapingResult := r, version := "1.0.0" }

/-- Embedded `CacheService.loadCache`: a parseable entry that passes
the validity check is returned and counts a hit; a stale entry, a
missing file and an unparseable file all return `none` and count a
miss (read errors are swallowed). -/
def loadCache (today nowIso : String) (s : CacheState) : Option CacheEntry × CacheState :=
  match s.file with
  | .entry e =>
    if isCacheValid today e then
      (some e, { s with hits := s.hits + 1, lastAccess := some nowIso })
    else
      (none, { s with misses := s.misses + 1 })
  | _ => (none, { s with misses := s.misses + 1 })

/-- Embedded `CacheService.loadCacheForFallback`: the parseable entry
regardless of validity, `none` when absent or unparseable; counters
untouched. -/
def loadCacheForFallback (s : CacheState) : Option CacheEntry :=
  match s.file with
  | .entry e => some e
  | _ => none

/-- Embedded `CacheService.saveCache` with injected outcomes for the
temp-file write and the rename (`none` = the step succeeds, `some m` =
it throws with message `m`).  A failing step removes the temp artifact
and surfaces `Cache save failed: <m>`; only a successful rename
replaces the canonical file. -/
def saveCache (today nowIso tz : String) (writeErr renameErr : Option String)
    (s : CacheState) (menuData : List Menu) (r : ScrapingResult) :
    Except String CacheEntry × CacheState :=
  let e := createCacheEntry today nowIso tz menuData r
  match writeErr with
  | some w => (.error ("Cache save failed: " ++ w), { s with tempFile := none })
  | none =>
    match renameErr with
    | some w => (.error ("Cache save failed: " ++ w), { s with tempFile := none })
    | none => (.ok e, { s with file := .entry e, tempFile := none })

/-- Exact-rational stand-in for the `toFixed(2)` hit-rate percentage
(`0%` when there has been no access). -/
def hitRateStr (h m : Nat) : String :=
  if 0 < h + m then renderCents ((h * 10000 * 2 + (h + m)) / (2 * (h + m))) ++ "%"
  else "0%"

/-- Statistics record returned by `getCacheStats` (the human-readable
`cacheAge` and `cacheSize` strings are not modelled). -/
structure CacheStats where
  isValid : Bool
  currentDate : String
  cacheDate : Option String
  lastUpdated : Option String
  hits : Nat
  misses : Nat
  hitRate : String
  timezone : String
  lastAccess : Option String
deriving Repr, DecidableEq

/-- Embedded `CacheService.getCacheStats`: performs a validity-checked
`loadCache` read and reports the counters as they stand after that
read. -/
def getCacheStats (today nowIso tz : String) (s : CacheState) :
    CacheStats × CacheState :=
  match loadCache today nowIso s with
  | (entryOpt, s1) =>
    ({ isValid := entryOpt.isSome, currentDate := today,
       cacheDate := entryOpt.map (fun e => e.date),
       lastUpdated := entryOpt.map (fun e => e.timestamp),
       hits := s1.hits, misses := s1.misses,
       hitRate := hitRateStr s1.hits s1.misses,
       timezone := tz, lastAccess := s1.lastAccess }, s1)

/-- Response shape of `MenuService.getAllMenus` (the claim-relevant
fields; the human-readable `cacheAge` string is not modelled). -/
structure MenusResponse where
  menus : List Menu
  lastUpdated : String
  source : String
  scrapingResult : ScrapingResult
  warning : Option String
  scrapingError : Option String
  cacheDate : Option String
deriving Repr, DecidableEq

/-- Environment of one `getAllMenus` call: the clock-derived strings,
the outcome the scraper would produce, and the injected cache-write
outcomes. -/
structure ScrapeEnv where
  today : String
  nowIso : String
  tz : String
  scrape : Except String (List RawMenu × ScrapingResult)
  writeErr : Option String
  renameErr : Option String

/-- Transient `MenuService` state mirroring the cache. -/
structure ServiceState where
  cache : CacheState
  lastUpdate : Option String
  lastScrapingResult : Option ScrapingResult
deriving Repr, DecidableEq

/-- Catch-block of `getAllMenus`: serve the persisted entry regardless
of validity with a warning and the captured error message, else
re-raise the original error. -/
def fallbackPath (errMsg : String) (c : CacheState) (s : ServiceState) :
    Except String MenusResponse × ServiceState :=
  match loadCacheForFallback c with
  | some e =>
    (.ok { menus := e.menuData, lastUpdated := e.timestamp,
           source := sourceUrl ++ " (stale cache)", scrapingResult := e.scrapingResult,
           warning := some "Serving cached data due to scraping failure",
           scrapingError := some errMsg, cacheDate := some e.date },
     { s with cache := c })
  | none => (.error errMsg, { s with cache := c })

/-- Embedded `MenuService.getAllMenus`: serve the valid cached entry
when the read hits; otherwise scrape, process, persist and serve the
fresh data; any exception inside that block (scrape failure or cache
save failure) diverts to `fallbackPath`. -/
def getAllMenus (env : ScrapeEnv) (s : ServiceState) :
    Except String MenusResponse × ServiceState :=
  match loadCache env.today env.nowIso s.cache with
  | (some e, c1) =>
    (.ok { menus := e.menuData, lastUpdated := e.timestamp,
           source := sourceUrl ++ " (cached)", scrapingResult := e.scrapingResult,
           warning := none, scrapingError := none, cacheDate := some e.date },
     { cache := c1, lastUpdate := some e.timestamp, lastScrapingResult := some e.scrapingResult })
  | (none, c1) =>
    match env.scrape with
    | .error msg => fallbackPath msg c1 s
    | .ok (rawMenus, result) =>
      let processed := processMenus env.nowIso rawMenus
      match saveCache env.today env.nowIso env.tz env.writeErr env.renameErr c1 processed result with
      | (.error msg, c2) => fallbackPath msg c2 s
      | (.ok _, c2) =>
        (.ok { menus := processed, lastUpdated := env.nowIso, source := sourceUrl,
               scrapingResult := result, warning := none, scrapingError := none,
               cacheDate := none },
         { cache := c2, lastUpdate := some env.nowIso, lastScrapingResult := some result })

/-- Last-selection record kept by `RandomSelectionService`
(`availableAfterFiltering` is only set by the anti-repeat variant). -/
structure LastSelection where
  menuId : String
  timestamp : String
  totalAvailable : Nat
  availableAfterFiltering : Option Nat
deriving Repr, DecidableEq

/-- Modelled state of a `RandomSelectionService` instance. -/
structure SelectionState where
  lastSelection : Option LastSelection
  selectionHistory : List String
  maxHistorySize : Nat
deriving Repr, DecidableEq

/-- Result payload of a selection call. -/
structure SelectionResult where
  selectedMenu : Menu
  totalMenusAvailable : Nat
  selectionTimestamp : String
deriving Repr, DecidableEq

/-- Embedded `generateRandomIndex`: rejects a non-positive bound,
short-circuits a singleton, otherwise reduces the sampled 32-bit value
`rv` modulo the bound. -/
def generateRandomIndex (rv max : Nat) : Except String Nat :=
  if max = 0 then .error "Maximum value must be positive"
  else if max = 1 then .ok 0
  else .ok (rv % max)

/-- Last `n` elements of a list (`slice(-n)` for positive `n`). -/
def takeLast {α : Type} (n : Nat) (l : List α) : List α :=
  l.drop (l.length - n)

/-- Embedded `array.slice(-n)` over a natural count: JavaScript
evaluates `slice(-0)` as `slice(0)`, the whole array. -/
def jsSliceLast {α : Type} (n : Nat) (l : List α) : List α :=
  if n = 0 then l else takeLast n l

/-- Embedded `updateSelectionHistory`: append the id, then clip to the
last `maxHistorySize` entries when over the limit. -/
def updateSelectionHistory (st : SelectionState) (menuId : String) : SelectionState :=
  let h := st.selectionHistory ++ [menuId]
  { st with
    selectionHistory := if st.maxHistorySize < h.length then jsSliceLast st.maxHistorySize h else h }

/-- Index actually drawn for a pool of size `n` (the `max = 1`
short-circuit, else `rv % n`). -/
def selIndex (rv n : Nat) : Nat :=
  if n = 1 then 0 else rv % n

/-- Embedded `RandomSelectionService.selectRandomMenu`.  All list
elements are `Menu` values, so the `instanceof` filter is the
identity.  The returned triple also carries the input list as the call
leaves it, making the no-mutation guarantee explicit. -/
def selectRandomMenu (rv : Nat) (nowIso : String) (st : SelectionState)
    (menus : List Menu) :
    Except String (SelectionResult × SelectionState × List Menu) :=
  if menus.isEmpty then .error "No menus available for random selection"
  else
    match generateRandomIndex rv menus.length with
    | .error e => .error e
    | .ok i =>
      match menus.get? i with
      | none => .error "index out of range"
      | some sel =>
        let copy := (sel.clone).setSelected true
        let st1 := updateSelectionHistory st copy.id
        .ok ({ selectedMenu := copy, totalMenusAvailable := menus.length,
               selectionTimestamp := nowIso },
             { st1 with lastSelection := some ⟨copy.id, nowIso, menus.length, none⟩ },
             menus)

/-- Candidate pool computed by the anti-repeat selection (the
`recentSelections` / `availableMenus` / `menusToChooseFrom` locals):
menus whose ids appear in `history.slice(-avoidCount)` are dropped,
falling back to the full list when that empties the pool. -/
def antiRepeatPool (st : SelectionState) (menus : List Menu) (avoidRecentCount : Nat) :
    List Menu :=
  let recent := jsSliceLast avoidRecentCount st.selectionHistory
  let available := menus.filter (fun m => !recent.contains m.id)
  if available.isEmpty then menus else available

/-- Embedded `RandomSelectionService.selectRandomMenuWithAntiRepeat`:
delegate to the plain selection when the list is not larger than the
avoid count; otherwise select from `antiRepeatPool`. -/
def selectRandomMenuWithAntiRepeat (rv : Nat) (nowIso : String) (st : SelectionState)
    (menus : List Menu) (avoidRecentCount : Nat) :
    Except String (SelectionResult × SelectionState × List Menu) :=
  if menus.isEmpty then .error "No menus available for random selection"
  else if menus.length ≤ avoidRecentCount then selectRandomMenu rv nowIso st menus
  else
    match generateRandomIndex rv (antiRepeatPool st menus avoidRecentCount).length with
    | .error e => .error e
    | .ok i =>
      match (antiRepeatPool st menus avoidRecentCount).get? i with
      | none => .error "index out of range"
      | some sel =>
        let copy := (sel.clone).setSelected true
        let st1 := updateSelectionHistory st copy.id
        let last : LastSelection :=
          ⟨copy.id, nowIso, menus.length, some (antiRepeatPool st menus avoidRecentCount).length⟩
        .ok ({ selectedMenu := copy, totalMenusAvailable := menus.length,
               selectionTimestamp := nowIso },
             { st1 with lastSelection := some last },
             menus)

/-- Candidate pool that C9 ascribes to the anti-repeat selection: only
the menus whose ids sit in the last `avoidCount` history entries are
excluded, with fallback to the full list. -/
def specAntiRepeatPool (st : SelectionState) (menus : List Menu) (avoid : Nat) :
    List Menu :=
  let recent := takeLast avoid st.selectionHistory
  let available := menus.filter (fun m => !recent.contains m.id)
  if available.isEmpty then menus else available

/-! Concrete sample values used as test vectors by the theorems below. -/

/-- Sample raw scraped menu with a plain title and no items. -/
def sampleLunchRaw : ScrapedMenuData := ⟨"", "Lunch", "", [], none⟩

/-- Sample successful scraping result. -/
def sampleOkResult : ScrapingResult := ⟨"ts", true, 1, sourceUrl, none, 1⟩

/-- Cache state with no persisted file and fresh counters. -/
def emptyCacheState : CacheState := ⟨.absent, none, 0, 0, none⟩

/-- Service state over the empty cache. -/
def emptySvcState : ServiceState := ⟨emptyCacheState, none, none⟩

/-- Environment where the scrape succeeds and the cache rename step
fails. -/
def sampleEnvWriteFail : ScrapeEnv :=
  ⟨"2025-01-02", "now", "tz", .ok ([.raw sampleLunchRaw], sampleOkResult), none, some "disk full"⟩

/-- Sample menu persisted on an earlier day. -/
def sampleOldMenu : Menu := ⟨"old", "Old", "", [], none, "t0", false⟩

/-- Cache entry persisted yesterday relative to the sample clock. -/
def sampleOldEntry : CacheEntry :=
  ⟨"2025-01-01", "old-ts", "tz", [sampleOldMenu], sampleOkResult, "1.0.0"⟩

/-- Cache state holding only yesterday's entry. -/
def staleCacheState : CacheState := ⟨.entry sampleOldEntry, none, 0, 0, none⟩

/-- Service state over the stale cache. -/
def staleSvcState : ServiceState := ⟨staleCacheState, none, none⟩

/-- Environment where the scrape itself fails. -/
def sampleEnvScrapeFail : ScrapeEnv :=
  ⟨"2025-01-02", "now", "tz", .error "fetch blew up", none, none⟩

/-- Environment where the scrape fails over a stale cache entry while
the write steps would succeed. -/
def sampleEnvWriteFailStale : ScrapeEnv :=
  ⟨"2025-01-02", "now", "tz", .ok ([.raw sampleLunchRaw], sampleOkResult), some "disk full", none⟩

/-- Cache entry whose date is today relative to `getCurrentDate 2025 1 2`. -/
def sampleTodayEntry : CacheEntry := ⟨"2025-01-02", "ts", "tz", [], sampleOkResult, "1.0.0"⟩

/-- Cache state holding today's entry with some accumulated counters. -/
def hitCacheState : CacheState := ⟨.entry sampleTodayEntry, none, 3, 4, none⟩

/-- Sample selectable menu `a`. -/
def sampleMenuA : Menu := ⟨"a", "A", "", [], none, "t", false⟩

/-- Sample selectable menu `b`. -/
def sampleMenuB : Menu := ⟨"b", "B", "", [], none, "t", false⟩

/-- Selection state remembering that `a` was drawn before. -/
def sampleSelState : SelectionState := ⟨none, ["a"], 10⟩

/-! JavaScript-value model of the tag pipeline.  The `standardMap`
lookups in `standardizeDietaryInfo` / `standardizeAllergenInfo` are
property reads on object literals and therefore also reach the
members inherited from `Object.prototype`: `standardMap['constructor']`
yields the inherited `Object` function, which is truthy, so the map
step can produce non-string values, and re-normalizing such a value
throws (`item.toLowerCase is not a function`).  The types below model
the values a tag slot can hold after normalization and the fallible
pipeline over them. -/

/-- Value held by a dietary/allergen slot after the map step: a
string, an inherited `Object.prototype` function (identified by its
name, carrying its arity as its `length` property), or the
`Object.prototype` object itself (the result of reading `__proto__`). -/
inductive JsTag where
  | str (s : String)
  | protoFn (name : String) (arity : Nat)
  | protoObj
deriving Repr, DecidableEq

/-- Properties of `Object.prototype` reachable through a property read
on an object literal, with the values such a read produces (the
functions carry their `length`). -/
def objectProtoProps : List (String × JsTag) :=
  [("constructor", .protoFn "constructor" 1),
   ("hasOwnProperty", .protoFn "hasOwnProperty" 1),
   ("isPrototypeOf", .protoFn "isPrototypeOf" 1),
   ("propertyIsEnumerable", .protoFn "propertyIsEnumerable" 1),
   ("toLocaleString", .protoFn "toLocaleString" 0),
   ("toString", .protoFn "toString" 0),
   ("valueOf", .protoFn "valueOf" 0),
   ("__defineGetter__", .protoFn "__defineGetter__" 2),
   ("__defineSetter__", .protoFn "__defineSetter__" 2),
   ("__lookupGetter__", .protoFn "__lookupGetter__" 1),
   ("__lookupSetter__", .protoFn "__lookupSetter__" 1),
   ("__proto__", .protoObj)]

/-- Prototype-chain part of a property read on an object literal:
consulted when the key is not an own key. -/
def protoLookup (k : String) : Option JsTag :=
  assocL objectProtoProps k

/-- The `length` property of a tag value: string length, function
arity, or absent (`undefined`) on `Object.prototype`. -/
def jsLength : JsTag → Option Nat
  | .str s => some s.length
  | .protoFn _ a => some a
  | .protoObj => none

/-- The `item.length > 0` filter over tag values (`undefined > 0` is
false). -/
def jsLenPos (t : JsTag) : Bool :=
  match jsLength t with
  | some n => decide (0 < n)
  | none => false

/-- Per-tag mapping step of `standardizeDietaryInfo` over tag values:
`item.toLowerCase()` throws on a non-string, otherwise the property
read consults the own keys and then `Object.prototype` (every hit is
truthy), falling back to the normalized string. -/
def dietNormJs : JsTag → Except String JsTag
  | .str s =>
    match assocL dietaryMap (jsTrim (jsLower s)) with
    | some v => .ok (.str v)
    | none =>
      match protoLookup (jsTrim (jsLower s)) with
      | some pv => .ok pv
      | none => .ok (.str (jsTrim (jsLower s)))
  | _ => .error "TypeError: item.toLowerCase is not a function"

/-- Per-tag mapping step of `standardizeAllergenInfo` over tag values:
own keys, then `Object.prototype`, then the `contains ` fallback on
the original string. -/
def allergNormJs : JsTag → Except String JsTag
  | .str s =>
    match assocL allergenMap (jsTrim (jsLower s)) with
    | some v => .ok (.str v)
    | none =>
      match protoLookup (jsTrim (jsLower s)) with
      | some pv => .ok pv
      | none =>
        .ok (.str (if jsStartsWith s "contains" then s else "contains " ++ s))
  | _ => .error "TypeError: item.toLowerCase is not a function"

/-- `array.map(callback)` over tag values: the callback runs left to
right and its first throw propagates. -/
def mapTagsJs (f : JsTag → Except String JsTag) : List JsTag → Except String (List JsTag)
  | [] => .ok []
  | t :: ts => do
    let v ← f t
    let vs ← mapTagsJs f ts
    .ok (v :: vs)

/-- First-occurrence deduplication over tag values (strict equality,
which the value model captures structurally: repeated reads of one
inherited property yield the same object). -/
def dedupFirstJsAux (seen : List JsTag) : List JsTag → List JsTag
  | [] => []
  | a :: l =>
    if seen.contains a then dedupFirstJsAux seen l else a :: dedupFirstJsAux (a :: seen) l

/-- First-occurrence deduplication over tag values. -/
def dedupFirstJs (l : List JsTag) : List JsTag :=
  dedupFirstJsAux [] l

/-- Map / dedupe / drop-short pipeline of the standardisation
functions over tag values. -/
def tagPipelineJs (f : JsTag → Except String JsTag) (l : List JsTag) :
    Except String (List JsTag) := do
  let mapped ← mapTagsJs f l
  .ok ((dedupFirstJs mapped).filter jsLenPos)

/-- Embedded `MenuService.standardizeDietaryInfo` over tag values. -/
def standardizeDietaryInfoJs (l : List JsTag) : Except String (List JsTag) :=
  tagPipelineJs dietNormJs l

/-- Embedded `MenuService.standardizeAllergenInfo` over tag values. -/
def standardizeAllergenInfoJs (l : List JsTag) : Except String (List JsTag) :=
  tagPipelineJs allergNormJs l

/-- `MenuItem` whose dietary/allergen slots hold tag values (as they
do after one normalization pass). -/
structure MenuItemJs where
  id : String
  name : String
  description : String
  price : String
  dietary : List JsTag
  allergens : List JsTag
  availability : String
deriving Repr, DecidableEq

/-- Embedded `MenuItem.validate` over the tag-value item: non-blank id
and name (dietary/allergens only have to be arrays, which the list
type guarantees — element types are not checked). -/
def menuItemJsValid (it : MenuItemJs) : Bool :=
  nonBlank it.id && nonBlank it.name

/-- Embedded `MenuService.enrichMenuItem` over the tag-value item: the
price step, then the two standardisations, either of which can throw. -/
def enrichMenuItemJs (it : MenuItemJs) : Except String MenuItemJs := do
  let d ← standardizeDietaryInfoJs it.dietary
  let a ← standardizeAllergenInfoJs it.allergens
  Except.ok { it with price := enrichPrice it.price, dietary := d, allergens := a }

/-- Safety of a string tag for a given synonym table: its normalized
form either hits an own key or misses `Object.prototype` as well, so
the property read yields a string. -/
def strSafe (m : List (String × String)) (s : String) : Bool :=
  match assocL m (jsTrim (jsLower s)) with
  | some _ => true
  | none => (protoLookup (jsTrim (jsLower s))).isNone

/-- Safety of a tag value: a string tag that is safe for the table. -/
def tagSafe (m : List (String × String)) : JsTag → Bool
  | .str s => strSafe m s
  | _ => false

/-- Valid item carrying the dietary tag `constructor`, whose property
read hits `Object.prototype.constructor`. -/
def ctorTagItem : MenuItemJs :=
  ⟨"x", "X", "", "", [.str "constructor"], [], ""⟩

/-- The same item after one normalization pass: the dietary slot now
holds the inherited function (its `length` is 1, so the size filter
keeps it). -/
def ctorTagItemOnce : MenuItemJs :=
  ⟨"x", "X", "", "", [.protoFn "constructor" 1], [], ""⟩

/-- Item with safe tags used to instantiate the amended idempotence
theorem. -/
def safeTagItem : MenuItemJs :=
  ⟨"x", "X", "", "2.50", [.str "Veg"], [.str "WHEAT"], ""⟩

/-! Helper lemmas about the embedded string operations. -/

lemma assocL_mem {α β : Type} [DecidableEq α] {m : List (α × β)} {k : α} {v : β}
    (h : assocL m k = some v) : (k, v) ∈ m := by
  induction m with
  | nil => simp [assocL] at h
  | cons p rest ih =>
    obtain ⟨pk, pv⟩ := p
    by_cases hk : k = pk
    · subst hk
      rw [assocL, if_pos rfl] at h
      injection h with h2
      subst h2
      exact List.mem_cons_self _ _
    · rw [assocL, if_neg hk] at h
      exact List.mem_cons_of_mem _ (ih h)

lemma assocL_eq_none {α β : Type} [DecidableEq α] {m : List (α × β)} {k : α}
    (h : ∀ p ∈ m, k ≠ p.1) : assocL m k = none := by
  induction m with
  | nil => rfl
  | cons p rest ih =>
    obtain ⟨pk, pv⟩ := p
    rw [assocL, if_neg (h (pk, pv) (List.mem_cons_self _ _))]
    exact ih (fun q hq => h q (List.mem_cons_of_mem _ hq))

lemma pairs_snd_fix : ∀ p ∈ upperLowerPairs, assocL upperLowerPairs p.2 = none := by
  decide

lemma pairs_not_ws : ∀ p ∈ upperLowerPairs, wsChar p.1 = false ∧ wsChar p.2 = false := by
  decide

lemma lowerChar_idem (c : Char) : lowerChar (lowerChar c) = lowerChar c := by
  cases h : assocL upperLowerPairs c with
  | none => simp [lowerChar, h]
  | some v =>
    have h2 : assocL upperLowerPairs v = none := pairs_snd_fix (c, v) (assocL_mem h)
    simp [lowerChar, h, h2]

lemma wsChar_lowerChar (c : Char) : wsChar (lowerChar c) = wsChar c := by
  cases h : assocL upperLowerPairs c with
  | none => simp [lowerChar, h]
  | some v =>
    have hw := pairs_not_ws (c, v) (assocL_mem h)
    simp [lowerChar, h, hw.1, hw.2]

lemma map_eq_self_of_fix {α : Type} {f : α → α} {l : List α}
    (h : ∀ x ∈ l, f x = x) : l.map f = l := by
  induction l with
  | nil => rfl
  | cons a t ih =>
    rw [List.map_cons, h a (List.mem_cons_self _ _),
        ih (fun x hx => h x (List.mem_cons_of_mem _ hx))]

lemma map_lowerChar_idem (l : List Char) :
    (l.map lowerChar).map lowerChar = l.map lowerChar := by
  apply map_eq_self_of_fix
  intro x hx
  obtain ⟨y, _, rfl⟩ := List.mem_map.mp hx
  exact lowerChar_idem y

lemma jsLower_idem (s : String) : jsLower (jsLower s) = jsLower s := by
  apply String.ext
  exact map_lowerChar_idem s.data

lemma dropWhile_dropWhile {α : Type} (p : α → Bool) (l : List α) :
    (l.dropWhile p).dropWhile p = l.dropWhile p := by
  induction l with
  | nil => rfl
  | cons a t ih =>
    by_cases h : p a
    · rw [List.dropWhile_cons, if_pos h, ih]
    · rw [List.dropWhile_cons, if_neg h, List.dropWhile_cons, if_neg h]

lemma dropWhile_head_false {α : Type} {p : α → Bool} {l : List α} {a : α} {t : List α}
    (h : List.dropWhile p l = a :: t) : p a = false := by
  induction l with
  | nil => simp at h
  | cons b r ih =>
    by_cases hb : p b
    · rw [List.dropWhile_cons, if_pos hb] at h
      exact ih h
    · rw [List.dropWhile_cons, if_neg hb] at h
      obtain ⟨rfl, -⟩ := List.cons.injEq .. ▸ h
      exact Bool.eq_false_iff.mpr hb

lemma trimBack_trimBack (l : List Char) : trimBack (trimBack l) = trimBack l := by
  unfold trimBack
  rw [List.reverse_reverse, dropWhile_dropWhile]

lemma trimBack_head (a : Char) (t : List Char) :
    trimBack (a :: t) = [] ∨ ∃ u, trimBack (a :: t) = a :: u := by
  obtain ⟨pre, hpre⟩ := List.dropWhile_suffix (l := (a :: t).reverse) wsChar
  cases hrev : (List.dropWhile wsChar (a :: t).reverse).reverse with
  | nil => exact Or.inl (by simpa [trimBack] using hrev)
  | cons b u =>
    have h1 := congrArg List.reverse hpre
    rw [List.reverse_append, List.reverse_reverse, hrev] at h1
    have hb : b = a := by
      have := (List.cons.injEq .. ▸ h1).1
      exact this
    subst hb
    exact Or.inr ⟨u, by simpa [trimBack] using hrev⟩

lemma trimFront_of_trimBack_trimFront (l : List Char) :
    trimFront (trimBack (trimFront l)) = trimBack (trimFront l) := by
  cases hA : trimFront l with
  | nil => rfl
  | cons a t =>
    have ha : wsChar a = false := dropWhile_head_false hA
    rcases trimBack_head a t with h | ⟨u, hu⟩
    · rw [h]; rfl
    · rw [hu]
      unfold trimFront
      rw [List.dropWhile_cons, if_neg (by simp [ha])]

lemma jsTrim_idem (s : String) : jsTrim (jsTrim s) = jsTrim s := by
  apply String.ext
  show trimBack (trimFront (trimBack (trimFront s.data))) = trimBack (trimFront s.data)
  rw [trimFront_of_trimBack_trimFront, trimBack_trimBack]

lemma trimFront_map_lower (l : List Char) :
    trimFront (l.map lowerChar) = (trimFront l).map lowerChar := by
  unfold trimFront
  rw [List.dropWhile_map]
  have hfun : (wsChar ∘ lowerChar) = wsChar := funext wsChar_lowerChar
  rw [hfun]

lemma trimBack_map_lower (l : List Char) :
    trimBack (l.map lowerChar) = (trimBack l).map lowerChar := by
  unfold trimBack
  rw [← List.map_reverse, List.dropWhile_map, ← List.map_reverse]
  have hfun : (wsChar ∘ lowerChar) = wsChar := funext wsChar_lowerChar
  rw [hfun]

lemma jsLower_jsTrim (s : String) : jsLower (jsTrim s) = jsTrim (jsLower s) := by
  apply String.ext
  show (trimBack (trimFront s.data)).map lowerChar
      = trimBack (trimFront (s.data.map lowerChar))
  rw [trimFront_map_lower, trimBack_map_lower]

lemma norm_str_fix (s : String) :
    jsTrim (jsLower (jsTrim (jsLower s))) = jsTrim (jsLower s) := by
  rw [jsLower_jsTrim, jsLower_idem, jsTrim_idem]

lemma dietaryMap_vals_fix : ∀ p ∈ dietaryMap, dietNorm p.2 = p.2 := by decide

lemma dietNorm_idem (s : String) : dietNorm (dietNorm s) = dietNorm s := by
  cases h : assocL dietaryMap (jsTrim (jsLower s)) with
  | some v =>
    have hs : dietNorm s = v := by simp [dietNorm, h]
    rw [hs]
    exact dietaryMap_vals_fix _ (assocL_mem h)
  | none =>
    have hs : dietNorm s = jsTrim (jsLower s) := by simp [dietNorm, h]
    rw [hs]
    simp [dietNorm, norm_str_fix s, h]

lemma allergenMap_vals_fix : ∀ p ∈ allergenMap, allergNorm p.2 = p.2 := by decide

lemma allergenMap_keys_head : ∀ p ∈ allergenMap, p.1.data.head? ≠ some 'c' := by decide

lemma assocL_allergen_none_of_head_c {s : String} (hs : s.data.head? = some 'c') :
    assocL allergenMap s = none := by
  apply assocL_eq_none
  intro p hp heq
  exact allergenMap_keys_head p hp (by rw [← heq] at *; exact hs)

lemma jsLower_contains_append (s : String) :
    jsLower ("contains " ++ s) = "contains " ++ jsLower s := by
  apply String.ext
  show (("contains " ++ s).data).map lowerChar = ("contains " ++ jsLower s).data
  rw [String.data_append, String.data_append, List.map_append]
  have h1 : ("contains ".data).map lowerChar = "contains ".data := by decide
  rw [h1]
  rfl

lemma trimBack_ne_nil_of_head {a : Char} {t : List Char} (ha : wsChar a = false) :
    trimBack (a :: t) ≠ [] := by
  intro h
  unfold trimBack at h
  rw [List.reverse_eq_nil_iff] at h
  rw [List.dropWhile_eq_nil_iff] at h
  have := h a (by simp)
  rw [ha] at this
  exact Bool.false_ne_true this

lemma head_jsTrim_cons {a : Char} {t : List Char} (ha : wsChar a = false) :
    ∃ u, trimBack (trimFront (a :: t)) = a :: u := by
  have hfront : trimFront (a :: t) = a :: t := by
    unfold trimFront
    rw [List.dropWhile_cons, if_neg (by simp [ha])]
  rw [hfront]
  rcases trimBack_head a t with h | h
  · exact absurd h (trimBack_ne_nil_of_head ha)
  · exact h

lemma startsWith_contains_append (s : String) :
    jsStartsWith ("contains " ++ s) "contains" = true := by
  show isPrefixList "contains".data ("contains " ++ s).data = true
  rw [String.data_append]
  rfl

lemma allergNorm_idem (s : String) : allergNorm (allergNorm s) = allergNorm s := by
  cases h : assocL allergenMap (jsTrim (jsLower s)) with
  | some v =>
    have hs : allergNorm s = v := by simp [allergNorm, h]
    rw [hs]
    exact allergenMap_vals_fix _ (assocL_mem h)
  | none =>
    by_cases hc : jsStartsWith s "contains" = true
    · have hs : allergNorm s = s := by simp [allergNorm, h, hc]
      rw [hs]; exact hs
    · have hs : allergNorm s = "contains " ++ s := by
        simp [allergNorm, h, hc]
      rw [hs]
      have hlow : jsLower ("contains " ++ s) = "contains " ++ jsLower s :=
        jsLower_contains_append s
      have hdata : ("contains " ++ jsLower s).data = 'c' :: ("ontains ".data ++ (jsLower s).data) := by
        rw [String.data_append]
        rfl
      have hhead : ∃ u, (jsTrim (jsLower ("contains " ++ s))).data = 'c' :: u := by
        rw [hlow]
        show ∃ u, trimBack (trimFront ("contains " ++ jsLower s).data) = 'c' :: u
        rw [hdata]
        exact head_jsTrim_cons (by decide)
      obtain ⟨u, hu⟩ := hhead
      have hnone : assocL allergenMap (jsTrim (jsLower ("contains " ++ s))) = none := by
        apply assocL_allergen_none_of_head_c
        rw [hu]; rfl
      rw [allergNorm, hnone]
      rw [if_pos (startsWith_contains_append s)]

/-! Helper lemmas about first-occurrence deduplication. -/

lemma mem_dedupFirstAux {x : String} : ∀ {seen l : List String},
    x ∈ dedupFirstAux seen l → x ∈ l := by
  intro seen l
  induction l generalizing seen with
  | nil => intro h; simp [dedupFirstAux] at h
  | cons a t ih =>
    intro h
    rw [dedupFirstAux] at h
    by_cases hc : seen.contains a
    · rw [if_pos hc] at h
      exact List.mem_cons_of_mem _ (ih h)
    · rw [if_neg hc] at h
      rcases List.mem_cons.mp h with rfl | h2
      · exact List.mem_cons_self _ _
      · exact List.mem_cons_of_mem _ (ih h2)

lemma not_mem_seen_dedupFirstAux {x : String} : ∀ {seen l : List String},
    x ∈ dedupFirstAux seen l → seen.contains x = false := by
  intro seen l
  induction l generalizing seen with
  | nil => intro h; simp [dedupFirstAux] at h
  | cons a t ih =>
    intro h
    rw [dedupFirstAux] at h
    by_cases hc : seen.contains a
    · rw [if_pos hc] at h
      exact ih h
    · rw [if_neg hc] at h
      rcases List.mem_cons.mp h with rfl | h2
      · exact Bool.eq_false_iff.mpr hc
      · have h3 := ih h2
        rw [List.contains_cons] at h3
        exact (Bool.or_eq_false_iff.mp h3).2

lemma nodup_dedupFirstAux : ∀ (seen l : List String), (dedupFirstAux seen l).Nodup := by
  intro seen l
  induction l generalizing seen with
  | nil => simp [dedupFirstAux]
  | cons a t ih =>
    rw [dedupFirstAux]
    by_cases hc : seen.contains a
    · rw [if_pos hc]; exact ih seen
    · rw [if_neg hc]
      refine List.nodup_cons.mpr ⟨?_, ih (a :: seen)⟩
      intro hmem
      have h3 := not_mem_seen_dedupFirstAux hmem
      rw [List.contains_cons] at h3
      simp at h3

lemma dedupFirstAux_eq_self {l : List String} (hnd : l.Nodup) :
    ∀ seen, (∀ x ∈ l, seen.contains x = false) → dedupFirstAux seen l = l := by
  induction l with
  | nil => intro seen _; rfl
  | cons a t ih =>
    intro seen hseen
    rw [dedupFirstAux,
        if_neg (by rw [hseen a (List.mem_cons_self _ _)]; exact Bool.false_ne_true)]
    congr 1
    apply ih (List.nodup_cons.mp hnd).2
    intro x hx
    rw [List.contains_cons, Bool.or_eq_false_iff]
    constructor
    · have hxa : x ≠ a := fun h => (List.nodup_cons.mp hnd).1 (h ▸ hx)
      simpa using hxa
    · exact hseen x (List.mem_cons_of_mem _ hx)

lemma mem_dedupFirst {l : List String} {x : String} (h : x ∈ dedupFirst l) : x ∈ l :=
  mem_dedupFirstAux h

lemma nodup_dedupFirst (l : List String) : (dedupFirst l).Nodup :=
  nodup_dedupFirstAux [] l

lemma dedupFirst_eq_self {l : List String} (h : l.Nodup) : dedupFirst l = l :=
  dedupFirstAux_eq_self h [] (fun _ _ => rfl)

lemma tagPipeline_idem (f : String → String) (hf : ∀ x, f (f x) = f x)
    (l : List String) : tagPipeline f (tagPipeline f l) = tagPipeline f l := by
  have hmem : ∀ x ∈ tagPipeline f l, f x = x := by
    intro x hx
    rw [tagPipeline] at hx
    have hx2 := (List.mem_filter.mp hx).1
    obtain ⟨y, -, rfl⟩ := List.mem_map.mp (mem_dedupFirst hx2)
    exact hf y
  have h1 : (tagPipeline f l).map f = tagPipeline f l := map_eq_self_of_fix hmem
  have hnd : (tagPipeline f l).Nodup := by
    rw [tagPipeline]
    exact List.Nodup.filter _ (nodup_dedupFirst _)
  have h3 : (tagPipeline f l).filter (fun s => decide (0 < s.length)) = tagPipeline f l := by
    apply List.filter_eq_self.mpr
    intro a ha
    rw [tagPipeline] at ha
    exact (List.mem_filter.mp ha).2
  calc tagPipeline f (tagPipeline f l)
      = (dedupFirst ((tagPipeline f l).map f)).filter (fun s => decide (0 < s.length)) := rfl
    _ = (dedupFirst (tagPipeline f l)).filter (fun s => decide (0 < s.length)) := by rw [h1]
    _ = (tagPipeline f l).filter (fun s => decide (0 < s.length)) := by
        rw [dedupFirst_eq_self hnd]
    _ = tagPipeline f l := h3

lemma standardizeDietaryInfo_idem (l : List String) :
    standardizeDietaryInfo (standardizeDietaryInfo l) = standardizeDietaryInfo l :=
  tagPipeline_idem dietNorm dietNorm_idem l

lemma standardizeAllergenInfo_idem (l : List String) :
    standardizeAllergenInfo (standardizeAllergenInfo l) = standardizeAllergenInfo l :=
  tagPipeline_idem allergNorm allergNorm_idem l

lemma enrichPrice_idem (p : String) : enrichPrice (enrichPrice p) = enrichPrice p := by
  by_cases h1 : p = ""
  · subst h1
    have hE : enrichPrice "" = "" := rfl
    rw [hE, hE]
  · by_cases h2 : jsIncludesChar p '€' = true
    · have hE : enrichPrice p = p := by
        unfold enrichPrice
        rw [if_neg h1, if_pos h2]
      rw [hE, hE]
    · by_cases h3 : 0 < getPriceNumericCents p
      · have hE : enrichPrice p = "€" ++ renderCents (getPriceNumericCents p) := by
          unfold enrichPrice
          rw [if_neg h1, if_neg h2, if_pos h3]
        have hne : ¬ ("€" ++ renderCents (getPriceNumericCents p)) = "" := by
          intro heq
          have h4 := congrArg String.length heq
          have l1 : String.length "€" = 1 := rfl
          have l0 : String.length "" = 0 := rfl
          rw [String.length_append, l1, l0] at h4
          omega
        have hinc : jsIncludesChar ("€" ++ renderCents (getPriceNumericCents p)) '€' = true := by
          show (("€" ++ renderCents (getPriceNumericCents p)).data).contains '€' = true
          rw [String.data_append]
          have h5 : "€".data = ['€'] := rfl
          rw [h5]
          simp [List.contains_cons]
        rw [hE]
        unfold enrichPrice
        rw [if_neg hne, if_pos hinc]
      · have hE : enrichPrice p = p := by
          unfold enrichPrice
          rw [if_neg h1, if_neg h2, if_neg h3]
        rw [hE, hE]

lemma getCurrentDate_ne_empty (y m d : Nat) : getCurrentDate y m d ≠ "" := by
  intro h
  have h4 := congrArg String.length h
  have ld : String.length "-" = 1 := rfl
  have l0 : String.length "" = 0 := rfl
  rw [getCurrentDate, String.length_append, String.length_append,
      String.length_append, String.length_append, ld, l0] at h4
  omega

/-- Idempotence of the enrichment in the string-restricted tag model
(the supporting result behind the amended C7 theorem below, which
additionally handles the prototype-chain hits of the property read). -/
lemma enrichMenuItem_idem_strings (it : MenuItem) :
    enrichMenuItem (enrichMenuItem it) = enrichMenuItem it := by
  unfold enrichMenuItem
  simp only [enrichPrice_idem, standardizeDietaryInfo_idem, standardizeAllergenInfo_idem]

/-- C6 (failing input): two raw menus with the same title both survive
`processMenus` with the same slug id `lunch`, so the produced batch
violates the uniqueness invariant the claim states. -/
theorem processMenus_duplicate_ids :
    (processMenus "t" [RawMenu.raw sampleLunchRaw, RawMenu.raw sampleLunchRaw]).map Menu.id
      = ["lunch", "lunch"] ∧
    ¬ ((processMenus "t" [RawMenu.raw sampleLunchRaw, RawMenu.raw sampleLunchRaw]).map
        Menu.id).Nodup := by
  exact ⟨rfl, by decide⟩

/-- C5 (counterexample): a `stats()` call over the empty cache state
bumps the miss counter from 0 to 1, so the counters are not left
unchanged. -/
theorem getCacheStats_mutates_counters :
    (getCacheStats "2025-01-02" "n" "tz" emptyCacheState).2.misses = 1 ∧
    emptyCacheState.misses = 0 := ⟨rfl, rfl⟩

/-- C5 (amended): `getCacheStats` performs a validity-checked read, so
it increments the hit counter on a valid entry and the miss counter
otherwise, and reports the post-read counters. -/
theorem getCacheStats_increments_one_counter (today nowIso tz : String) (s : CacheState) :
    ((getCacheStats today nowIso tz s).2.hits
        = s.hits + (if ((loadCache today nowIso s).1).isSome then 1 else 0)) ∧
    ((getCacheStats today nowIso tz s).2.misses
        = s.misses + (if ((loadCache today nowIso s).1).isSome then 0 else 1)) ∧
    ((getCacheStats today nowIso tz s).1.hits = (getCacheStats today nowIso tz s).2.hits) ∧
    ((getCacheStats today nowIso tz s).1.misses = (getCacheStats today nowIso tz s).2.misses) := by
  obtain ⟨file, temp, hits, misses, la⟩ := s
  cases file with
  | absent => simp [getCacheStats, loadCache]
  | corrupt => simp [getCacheStats, loadCache]
  | entry e =>
    by_cases hv : isCacheValid today e = true
    · simp [getCacheStats, loadCache, hv]
    · simp [getCacheStats, loadCache, hv]

/-- C2: `saveCache` is atomic.  A successful write/rename replaces the
canonical entry and leaves no temp artifact; a failing rename (and a
failing temp write) removes the temp artifact, surfaces the error, and
leaves the previously persisted entry untouched, so a fallback read
still sees exactly what it saw before. -/
theorem saveCache_atomic (today nowIso tz : String) (s : CacheState)
    (md : List Menu) (r : ScrapingResult) (w : String) :
    (saveCache today nowIso tz none none s md r
        = (Except.ok (createCacheEntry today nowIso tz md r),
           { s with file := FileState.entry (createCacheEntry today nowIso tz md r),
                    tempFile := none })) ∧
    (saveCache today nowIso tz none (some w) s md r
        = (Except.error ("Cache save failed: " ++ w), { s with tempFile := none })) ∧
    ((saveCache today nowIso tz none (some w) s md r).2.file = s.file) ∧
    (loadCacheForFallback (saveCache today nowIso tz none (some w) s md r).2
        = loadCacheForFallback s) ∧
    ((saveCache today nowIso tz none (some w) s md r).2.tempFile = none) ∧
    (saveCache today nowIso tz (some w) none s md r
        = (Except.error ("Cache save failed: " ++ w), { s with tempFile := none })) := by
  exact ⟨rfl, rfl, rfl, rfl, rfl, rfl⟩

/-- C3: `loadCache` returns the persisted entry exactly when its
stored date equals the current date computed at read time; missing,
unreadable and unparseable files behave like a miss and never raise;
every miss bumps the miss counter and only a valid read bumps the hit
counter. -/
theorem loadCache_valid_iff_today (y m d : Nat) (nowIso : String) (s : CacheState) :
    (∀ e : CacheEntry,
        (loadCache (getCurrentDate y m d) nowIso s).1 = some e ↔
          (s.file = FileState.entry e ∧ e.date = getCurrentDate y m d)) ∧
    ((loadCache (getCurrentDate y m d) nowIso s).1 = none →
        (loadCache (getCurrentDate y m d) nowIso s).2.misses = s.misses + 1 ∧
        (loadCache (getCurrentDate y m d) nowIso s).2.hits = s.hits) ∧
    (∀ e : CacheEntry,
        (loadCache (getCurrentDate y m d) nowIso s).1 = some e →
        (loadCache (getCurrentDate y m d) nowIso s).2.hits = s.hits + 1 ∧
        (loadCache (getCurrentDate y m d) nowIso s).2.misses = s.misses) := by
  obtain ⟨file, temp, hits, misses, la⟩ := s
  cases file with
  | absent => simp [loadCache]
  | corrupt => simp [loadCache]
  | entry e' =>
    by_cases hv : isCacheValid (getCurrentDate y m d) e' = true
    · have hd : e'.date = getCurrentDate y m d := by
        by_cases hde : e'.date = ""
        · rw [isCacheValid, if_pos hde] at hv
          exact absurd hv Bool.false_ne_true
        · rw [isCacheValid, if_neg hde] at hv
          exact of_decide_eq_true hv
      refine ⟨?_, ?_, ?_⟩
      · intro e
        simp only [loadCache, hv, if_true]
        constructor
        · intro h
          injection h with h2
          subst h2
          exact ⟨rfl, hd⟩
        · rintro ⟨h1, -⟩
          injection h1 with h2
          rw [h2]
      · intro h
        simp [loadCache, hv] at h
      · intro e h
        simp [loadCache, hv]
    · have hne : ∀ e : CacheEntry, FileState.entry e' = FileState.entry e →
          ¬ e.date = getCurrentDate y m d := by
        intro e h1 h2
        injection h1 with h3
        subst h3
        apply hv
        rw [isCacheValid, if_neg (by rw [h2]; exact getCurrentDate_ne_empty y m d)]
        exact decide_eq_true h2
      refine ⟨?_, ?_, ?_⟩
      · intro e
        simp only [loadCache, hv, if_false]
        constructor
        · intro h; simp at h
        · rintro ⟨h1, h2⟩
          exact absurd h2 (hne e h1)
      · intro h
        simp [loadCache, hv]
      · intro e h
        simp [loadCache, hv] at h

/-- C3 (witness): on a cache whose entry carries today's date the read
returns that entry and bumps the hit counter from 3 to 4. -/
theorem loadCache_valid_iff_today_witness :
    (loadCache (getCurrentDate 2025 1 2) "n" hitCacheState).1 = some sampleTodayEntry ∧
    (loadCache (getCurrentDate 2025 1 2) "n" hitCacheState).2.hits = hitCacheState.hits + 1 := by
  have h := loadCache_valid_iff_today 2025 1 2 "n" hitCacheState
  have h1 := (h.1 sampleTodayEntry).mpr ⟨rfl, rfl⟩
  exact ⟨h1, (h.2.2 sampleTodayEntry h1).1⟩

lemma loadCache_file_eq (today nowIso : String) (s : CacheState) :
    ((loadCache today nowIso s).2).file = s.file := by
  obtain ⟨file, temp, hits, misses, la⟩ := s
  cases file with
  | absent => rfl
  | corrupt => rfl
  | entry e =>
    by_cases hv : isCacheValid today e = true
    · simp [loadCache, hv]
    · simp [loadCache, hv]

lemma saveCache_file_of_error {today nowIso tz : String} {w re : Option String}
    {s : CacheState} {md : List Menu} {r : ScrapingResult} {em : String}
    (h : (saveCache today nowIso tz w re s md r).1 = Except.error em) :
    ((saveCache today nowIso tz w re s md r).2).file = s.file := by
  cases w with
  | some _ => rfl
  | none =>
    cases re with
    | some _ => rfl
    | none => exact absurd h (by simp [saveCache])

/-- C4: when the fresh-fetch path raises and a persisted entry exists
(even a stale one), `getAllMenus` serves that entry's `menuData` with
the warning and the captured error message; with no persisted entry
the original error is re-raised. -/
theorem getAllMenus_stale_fallback (env : ScrapeEnv) (s : ServiceState) (msg : String)
    (hmiss : (loadCache env.today env.nowIso s.cache).1 = none)
    (hscrape : env.scrape = Except.error msg) :
    (∀ e : CacheEntry, s.cache.file = FileState.entry e →
        (getAllMenus env s).1 = Except.ok
          { menus := e.menuData, lastUpdated := e.timestamp,
            source := sourceUrl ++ " (stale cache)", scrapingResult := e.scrapingResult,
            warning := some "Serving cached data due to scraping failure",
            scrapingError := some msg, cacheDate := some e.date }) ∧
    ((s.cache.file = FileState.absent ∨ s.cache.file = FileState.corrupt) →
        (getAllMenus env s).1 = Except.error msg) := by
  rcases hL : loadCache env.today env.nowIso s.cache with ⟨res, c1⟩
  have hres : res = none := by rw [hL] at hmiss; exact hmiss
  subst hres
  have hc1file : c1.file = s.cache.file := by
    have h1 := loadCache_file_eq env.today env.nowIso s.cache
    rw [hL] at h1
    exact h1
  have hgoal : getAllMenus env s = fallbackPath msg c1 s := by
    unfold getAllMenus
    rw [hL, hscrape]
  constructor
  · intro e hfe
    have hfb : loadCacheForFallback c1 = some e := by
      unfold loadCacheForFallback
      rw [hc1file, hfe]
    rw [hgoal]
    unfold fallbackPath
    rw [hfb]
  · intro hor
    have hfb : loadCacheForFallback c1 = none := by
      unfold loadCacheForFallback
      rcases hor with h | h
      · rw [hc1file, h]
      · rw [hc1file, h]
    rw [hgoal]
    unfold fallbackPath
    rw [hfb]

/-- C4 (witness): a forced scrape failure over yesterday's persisted
entry yields the stale payload with the warning, not an exception. -/
theorem getAllMenus_stale_fallback_witness :
    ((loadCache sampleEnvScrapeFail.today sampleEnvScrapeFail.nowIso staleSvcState.cache).1
        = none) ∧
    ((getAllMenus sampleEnvScrapeFail staleSvcState).1 = Except.ok
      { menus := [sampleOldMenu], lastUpdated := "old-ts",
        source := sourceUrl ++ " (stale cache)", scrapingResult := sampleOkResult,
        warning := some "Serving cached data due to scraping failure",
        scrapingError := some "fetch blew up", cacheDate := some "2025-01-01" }) := by
  refine ⟨rfl, ?_⟩
  exact (getAllMenus_stale_fallback sampleEnvScrapeFail staleSvcState "fetch blew up"
      rfl rfl).1 sampleOldEntry rfl

/-- C1 (counterexample): with an empty cache, a successful fetch of
one processable menu and a failing cache rename, `getAllMenus` raises
the save error instead of returning the fresh menus. -/
theorem getAllMenus_write_failure_counterexample :
    (getAllMenus sampleEnvWriteFail emptySvcState).1
        = Except.error "Cache save failed: disk full" ∧
    (processMenus sampleEnvWriteFail.nowIso [RawMenu.raw sampleLunchRaw]).map Menu.id
        = ["lunch"] := ⟨rfl, rfl⟩

/-- C1 (amended): when the read misses, the fetch succeeds and the
cache write throws, `getAllMenus` enters the catch path: it serves the
persisted entry (even a stale one) with the warning and the save-error
message, and with no persisted entry it propagates the save error; the
freshly fetched menus are not returned. -/
theorem getAllMenus_write_failure_falls_back (env : ScrapeEnv) (s : ServiceState)
    (raws : List RawMenu) (r : ScrapingResult) (em : String)
    (hmiss : (loadCache env.today env.nowIso s.cache).1 = none)
    (hscrape : env.scrape = Except.ok (raws, r))
    (hsave : (saveCache env.today env.nowIso env.tz env.writeErr env.renameErr
        ((loadCache env.today env.nowIso s.cache).2) (processMenus env.nowIso raws) r).1
        = Except.error em) :
    (∀ e : CacheEntry, s.cache.file = FileState.entry e →
        (getAllMenus env s).1 = Except.ok
          { menus := e.menuData, lastUpdated := e.timestamp,
            source := sourceUrl ++ " (stale cache)", scrapingResult := e.scrapingResult,
            warning := some "Serving cached data due to scraping failure",
            scrapingError := some em, cacheDate := some e.date }) ∧
    ((s.cache.file = FileState.absent ∨ s.cache.file = FileState.corrupt) →
        (getAllMenus env s).1 = Except.error em) := by
  have hc2fs := saveCache_file_of_error hsave
  have hc1f := loadCache_file_eq env.today env.nowIso s.cache
  rcases hL : loadCache env.today env.nowIso s.cache with ⟨res, c1⟩
  have hres : res = none := by rw [hL] at hmiss; exact hmiss
  subst hres
  rw [hL] at hsave hc2fs hc1f
  rcases hS : saveCache env.today env.nowIso env.tz env.writeErr env.renameErr c1
      (processMenus env.nowIso raws) r with ⟨sres, c2⟩
  have hsres : sres = Except.error em := by rw [hS] at hsave; exact hsave
  subst hsres
  rw [hS] at hc2fs
  have hc2file : c2.file = s.cache.file := by rw [hc2fs, hc1f]
  have hgoal : getAllMenus env s = fallbackPath em c2 s := by
    simp only [getAllMenus, hL, hscrape, hS]
  constructor
  · intro e hfe
    have hfb : loadCacheForFallback c2 = some e := by
      unfold loadCacheForFallback
      rw [hc2file, hfe]
    rw [hgoal]
    unfold fallbackPath
    rw [hfb]
  · intro hor
    have hfb : loadCacheForFallback c2 = none := by
      unfold loadCacheForFallback
      rcases hor with h | h
      · rw [hc2file, h]
      · rw [hc2file, h]
    rw [hgoal]
    unfold fallbackPath
    rw [hfb]

/-- C1 (amended, witness): a failing temp-file write over yesterday's
entry makes `getAllMenus` serve the stale entry with the save-error
message. -/
theorem getAllMenus_write_failure_falls_back_witness :
    ((loadCache "2025-01-02" "now" staleSvcState.cache).1 = none) ∧
    ((getAllMenus sampleEnvWriteFailStale staleSvcState).1 = Except.ok
      { menus := [sampleOldMenu], lastUpdated := "old-ts",
        source := sourceUrl ++ " (stale cache)", scrapingResult := sampleOkResult,
        warning := some "Serving cached data due to scraping failure",
        scrapingError := some "Cache save failed: disk full",
        cacheDate := some "2025-01-01" }) := by
  refine ⟨rfl, ?_⟩
  exact (getAllMenus_write_failure_falls_back sampleEnvWriteFailStale staleSvcState
      [RawMenu.raw sampleLunchRaw] sampleOkResult "Cache save failed: disk full"
      rfl rfl rfl).1 sampleOldEntry rfl

lemma isoTimestamp_ne_empty (n : Nat) : ¬ isoTimestamp n = "" := by
  intro h
  have h4 := congrArg String.length h
  have lz : String.length "Z" = 1 := rfl
  have l0 : String.length "" = 0 := rfl
  rw [isoTimestamp, String.length_append, lz, l0] at h4
  omega

lemma errOrUnknown_ne_empty (o : Option String) : ¬ errOrUnknown o = "" := by
  cases o with
  | none => exact fun h => absurd h (by decide)
  | some e =>
    by_cases he : e = ""
    · rw [errOrUnknown, if_pos he]
      decide
    · rw [errOrUnknown, if_neg he]
      exact he

lemma createSuccess_ok (m : Nat) (src : String) (d : Nat) (t : String) (ht : ¬ t = "") :
    createSuccess m src d t = Except.ok ⟨t, true, m, src, none, d⟩ := by
  have hv : scrapingResultValidate ⟨t, true, m, src, none, d⟩ = true := by
    simp [scrapingResultValidate, truthyOptStr, ht]
  unfold createSuccess mkScrapingResult
  rw [if_pos hv]

lemma createFailure_ok (e : String) (src : String) (d : Nat) (t : String)
    (ht : ¬ t = "") (he : ¬ e = "") :
    createFailure e src d t = Except.ok ⟨t, false, 0, src, some e, d⟩ := by
  have hv : scrapingResultValidate ⟨t, false, 0, src, some e, d⟩ = true := by
    simp [scrapingResultValidate, truthyOptStr, ht, he]
  unfold createFailure mkScrapingResult
  rw [if_pos hv]

/-- C10: `scrapeMenus` never rejects: for every clock and every
injected internal error it resolves with a non-empty menu list and a
`ScrapingResult` whose success flag mirrors whether an error occurred;
an internal error yields exactly the hard-coded fallback menu. -/
theorem scrapeMenus_never_throws (t0 t1 : Nat) (err : Option String) :
    ∃ ms r, scrapeMenus t0 t1 err = Except.ok (ms, r) ∧ ms ≠ [] ∧
      r.success = err.isNone ∧ ms.length = (if err.isSome then 1 else 4) := by
  cases err with
  | none =>
    obtain ⟨m1, h1⟩ : ∃ m, createHertsiMenu (isoTimestamp t0) = Except.ok m := ⟨_, rfl⟩
    obtain ⟨m2, h2⟩ : ∃ m, createNewtonMenu (isoTimestamp t0) = Except.ok m := ⟨_, rfl⟩
    obtain ⟨m3, h3⟩ : ∃ m, createCafeKonehuoneMenu (isoTimestamp t0) = Except.ok m := ⟨_, rfl⟩
    obtain ⟨m4, h4⟩ : ∃ m, createReaktoriMenu (isoTimestamp t0) = Except.ok m := ⟨_, rfl⟩
    have hfso : fromScrapingOperation t0 (t0 + max (t1 - t0) 1) true 4 none sourceUrl
        = Except.ok ⟨isoTimestamp (t0 + max (t1 - t0) 1), true, 4, sourceUrl, none,
            max (t1 - t0) 1⟩ := by
      unfold fromScrapingOperation
      rw [if_pos rfl, Nat.add_sub_cancel_left]
      exact createSuccess_ok 4 sourceUrl (max (t1 - t0) 1) _ (isoTimestamp_ne_empty _)
    refine ⟨[m1, m2, m3, m4],
      ⟨isoTimestamp (t0 + max (t1 - t0) 1), true, 4, sourceUrl, none, max (t1 - t0) 1⟩,
      ?_, List.cons_ne_nil _ _, rfl, rfl⟩
    simp only [scrapeMenus, h1, h2, h3, h4, hfso]
    rfl
  | some e =>
    obtain ⟨m1, h1⟩ : ∃ m, createHertsiMenu (isoTimestamp t1) = Except.ok m := ⟨_, rfl⟩
    have hfso : fromScrapingOperation t0 t1 false 0 (some e) sourceUrl
        = Except.ok ⟨isoTimestamp t1, false, 0, sourceUrl, some (errOrUnknown (some e)),
            t1 - t0⟩ := by
      unfold fromScrapingOperation
      rw [if_neg (by simp)]
      exact createFailure_ok _ sourceUrl (t1 - t0) _ (isoTimestamp_ne_empty _)
        (errOrUnknown_ne_empty _)
    refine ⟨[m1],
      ⟨isoTimestamp t1, false, 0, sourceUrl, some (errOrUnknown (some e)), t1 - t0⟩,
      ?_, List.cons_ne_nil _ _, rfl, rfl⟩
    simp only [scrapeMenus, h1, hfso]
    rfl

/-- C10 (witness): the totality theorem instantiated at a concrete
clock, once without and once with an injected internal error. -/
theorem scrapeMenus_never_throws_witness :
    (∃ ms r, scrapeMenus 100 250 none = Except.ok (ms, r) ∧ ms ≠ [] ∧
      r.success = (none : Option String).isNone ∧
      ms.length = (if (none : Option String).isSome then 1 else 4)) ∧
    (∃ ms r, scrapeMenus 100 250 (some "boom") = Except.ok (ms, r) ∧ ms ≠ [] ∧
      r.success = (some "boom").isNone ∧
      ms.length = (if (some "boom").isSome then 1 else 4)) :=
  ⟨scrapeMenus_never_throws 100 250 none, scrapeMenus_never_throws 100 250 (some "boom")⟩

lemma selIndex_lt (rv : Nat) {n : Nat} (h : 0 < n) : selIndex rv n < n := by
  unfold selIndex
  by_cases h1 : n = 1
  · subst h1; simp
  · rw [if_neg h1]
    exact Nat.mod_lt _ h

lemma generateRandomIndex_ok (rv : Nat) {n : Nat} (h : 0 < n) :
    generateRandomIndex rv n = Except.ok (selIndex rv n) := by
  unfold generateRandomIndex selIndex
  rw [if_neg (by omega)]
  by_cases h1 : n = 1
  · rw [if_pos h1, if_pos h1]
  · rw [if_neg h1, if_neg h1]

lemma selectRandomMenu_spec (rv : Nat) (now : String) (st : SelectionState)
    (menus : List Menu) (h : menus ≠ []) :
    ∃ m res st', menus.get? (selIndex rv menus.length) = some m ∧
      selectRandomMenu rv now st menus = Except.ok (res, st', menus) ∧
      res.selectedMenu = (m.clone).setSelected true ∧
      res.selectedMenu = { m with isSelected := true } ∧
      res.totalMenusAvailable = menus.length ∧ m ∈ menus := by
  have hlen : 0 < menus.length := List.length_pos.mpr h
  obtain ⟨m, hm⟩ : ∃ m, menus.get? (selIndex rv menus.length) = some m :=
    ⟨_, List.get?_eq_get (selIndex_lt rv hlen)⟩
  have heq : selectRandomMenu rv now st menus
      = Except.ok ({ selectedMenu := (m.clone).setSelected true,
                     totalMenusAvailable := menus.length, selectionTimestamp := now },
                   { updateSelectionHistory st ((m.clone).setSelected true).id with
                     lastSelection := some ⟨((m.clone).setSelected true).id, now,
                       menus.length, none⟩ },
                   menus) := by
    simp only [selectRandomMenu, List.isEmpty_eq_false.mpr h, Bool.false_eq_true,
      if_false, generateRandomIndex_ok rv hlen, hm]
  exact ⟨m, _, _, hm, heq, rfl, rfl, rfl, List.get?_mem hm⟩

/-- C8: on a non-empty list `selectRandomMenu` returns a clone of the
chosen menu with `isSelected` set, and the input list comes out of the
call exactly as it went in. -/
theorem selectRandomMenu_clones_input (rv : Nat) (now : String) (st : SelectionState)
    (menus : List Menu) (h : menus ≠ []) :
    ∃ m res st', menus.get? (selIndex rv menus.length) = some m ∧
      selectRandomMenu rv now st menus = Except.ok (res, st', menus) ∧
      res.selectedMenu = (m.clone).setSelected true ∧
      res.selectedMenu = { m with isSelected := true } := by
  obtain ⟨m, res, st', h1, h2, h3, h4, -, -⟩ := selectRandomMenu_spec rv now st menus h
  exact ⟨m, res, st', h1, h2, h3, h4⟩

/-- C8 (witness): drawing from two sample menus with sampled value 5
yields a selected clone while the input list is unchanged. -/
theorem selectRandomMenu_clones_input_witness :
    ([sampleMenuA, sampleMenuB] ≠ ([] : List Menu)) ∧
    (∃ m res st',
      [sampleMenuA, sampleMenuB].get? (selIndex 5 [sampleMenuA, sampleMenuB].length)
          = some m ∧
      selectRandomMenu 5 "t" sampleSelState [sampleMenuA, sampleMenuB]
          = Except.ok (res, st', [sampleMenuA, sampleMenuB]) ∧
      res.selectedMenu = (m.clone).setSelected true ∧
      res.selectedMenu = { m with isSelected := true }) :=
  ⟨by decide,
   selectRandomMenu_clones_input 5 "t" sampleSelState [sampleMenuA, sampleMenuB] (by decide)⟩

lemma antiRepeatPool_ne_nil {st : SelectionState} {menus : List Menu} {avoid : Nat}
    (h : menus ≠ []) : antiRepeatPool st menus avoid ≠ [] := by
  unfold antiRepeatPool
  by_cases hav : (menus.filter
      (fun m => !((jsSliceLast avoid st.selectionHistory).contains m.id))).isEmpty = true
  · rw [if_pos hav]; exact h
  · rw [if_neg hav]
    exact List.isEmpty_eq_false.mp (Bool.eq_false_iff.mpr hav)

lemma antiRepeatPool_subset {st : SelectionState} {menus : List Menu} {avoid : Nat}
    {m : Menu} (h : m ∈ antiRepeatPool st menus avoid) : m ∈ menus := by
  unfold antiRepeatPool at h
  by_cases hav : (menus.filter
      (fun m => !((jsSliceLast avoid st.selectionHistory).contains m.id))).isEmpty = true
  · rw [if_pos hav] at h; exact h
  · rw [if_neg hav] at h
    exact (List.mem_filter.mp h).1

/-- C9 (counterexample): with one previous selection `a`, two menus
and `avoidCount = 0`, the code always selects `b` from a pool of size
1 (menu `a` is excluded via `slice(-0)`, which is the whole history),
although the last 0 history entries are empty, so the claim's
exclusion set is empty and its candidate pool is both menus. -/
theorem antiRepeat_avoid_zero_counterexample :
    selectRandomMenuWithAntiRepeat 0 "t" sampleSelState [sampleMenuA, sampleMenuB] 0
        = Except.ok (⟨⟨"b", "B", "", [], none, "t", true⟩, 2, "t"⟩,
            ⟨some ⟨"b", "t", 2, some 1⟩, ["a", "b"], 10⟩, [sampleMenuA, sampleMenuB]) ∧
    takeLast 0 sampleSelState.selectionHistory = ([] : List String) ∧
    (specAntiRepeatPool sampleSelState [sampleMenuA, sampleMenuB] 0).map Menu.id
        = ["a", "b"] :=
  ⟨rfl, rfl, rfl⟩

/-- C9 (amended): on a non-empty list the anti-repeat selection never
throws and always returns a clone of some input menu; when
`1 ≤ avoidCount < length` and the exclusion leaves candidates, the
selected id is not among `history.slice(-avoidCount)` (for
`avoidCount = 0` the exclusion set is the whole history, a
`slice(-0)` artifact); when the exclusion empties the pool or
`avoidCount ≥ length`, selection falls back to the full list. -/
theorem antiRepeat_total_with_fallback (rv : Nat) (now : String) (st : SelectionState)
    (menus : List Menu) (avoid : Nat) (h : menus ≠ []) :
    ∃ res st', selectRandomMenuWithAntiRepeat rv now st menus avoid
        = Except.ok (res, st', menus) ∧
      res.selectedMenu.isSelected = true ∧
      (∃ m ∈ menus, res.selectedMenu = { m with isSelected := true }) ∧
      (avoid < menus.length →
        menus.filter (fun m => !((jsSliceLast avoid st.selectionHistory).contains m.id)) ≠ [] →
        ((jsSliceLast avoid st.selectionHistory).contains res.selectedMenu.id) = false) := by
  by_cases hle : menus.length ≤ avoid
  · obtain ⟨m, res, st', h1, h2, h3, h4, -, h6⟩ := selectRandomMenu_spec rv now st menus h
    have heq : selectRandomMenuWithAntiRepeat rv now st menus avoid
        = selectRandomMenu rv now st menus := by
      unfold selectRandomMenuWithAntiRepeat
      rw [if_neg (by rw [List.isEmpty_eq_false.mpr h]; exact Bool.false_ne_true), if_pos hle]
    refine ⟨res, st', by rw [heq]; exact h2, h4 ▸ rfl, ⟨m, h6, h4⟩, ?_⟩
    intro hlt
    omega
  · have hpool : antiRepeatPool st menus avoid ≠ [] := antiRepeatPool_ne_nil h
    have hlenp : 0 < (antiRepeatPool st menus avoid).length := List.length_pos.mpr hpool
    obtain ⟨m, hm⟩ : ∃ m, (antiRepeatPool st menus avoid).get?
        (selIndex rv (antiRepeatPool st menus avoid).length) = some m :=
      ⟨_, List.get?_eq_get (selIndex_lt rv hlenp)⟩
    have hmem : m ∈ antiRepeatPool st menus avoid := List.get?_mem hm
    have heq : selectRandomMenuWithAntiRepeat rv now st menus avoid
        = Except.ok ({ selectedMenu := (m.clone).setSelected true,
                       totalMenusAvailable := menus.length, selectionTimestamp := now },
                     { updateSelectionHistory st ((m.clone).setSelected true).id with
                       lastSelection := some ⟨((m.clone).setSelected true).id, now,
                         menus.length, some (antiRepeatPool st menus avoid).length⟩ },
                     menus) := by
      simp only [selectRandomMenuWithAntiRepeat, List.isEmpty_eq_false.mpr h,
        Bool.false_eq_true, if_false, if_neg hle, generateRandomIndex_ok rv hlenp, hm]
    refine ⟨_, _, heq, rfl, ⟨m, antiRepeatPool_subset hmem, rfl⟩, ?_⟩
    intro _ hfil
    have hav : (menus.filter
        (fun m => !((jsSliceLast avoid st.selectionHistory).contains m.id))).isEmpty = false :=
      List.isEmpty_eq_false.mpr hfil
    have hpooldef : antiRepeatPool st menus avoid
        = menus.filter (fun m => !((jsSliceLast avoid st.selectionHistory).contains m.id)) := by
      simp only [antiRepeatPool]
      rw [hav]
      simp
    rw [hpooldef] at hmem
    have := (List.mem_filter.mp hmem).2
    rw [Bool.not_eq_true'] at this
    exact this

/-- C9 (amended, witness): with `avoidCount = 1`, two menus and the
history `[a]`, the selection succeeds and avoids `a`. -/
theorem antiRepeat_total_with_fallback_witness :
    ([sampleMenuA, sampleMenuB] ≠ ([] : List Menu)) ∧
    (∃ res st', selectRandomMenuWithAntiRepeat 0 "t" sampleSelState
          [sampleMenuA, sampleMenuB] 1
        = Except.ok (res, st', [sampleMenuA, sampleMenuB]) ∧
      res.selectedMenu.isSelected = true ∧
      (∃ m ∈ [sampleMenuA, sampleMenuB], res.selectedMenu = { m with isSelected := true }) ∧
      (1 < [sampleMenuA, sampleMenuB].length →
        [sampleMenuA, sampleMenuB].filter
            (fun m => !((jsSliceLast 1 sampleSelState.selectionHistory).contains m.id)) ≠ [] →
        ((jsSliceLast 1 sampleSelState.selectionHistory).contains
            res.selectedMenu.id) = false)) :=
  ⟨by decide,
   antiRepeat_total_with_fallback 0 "t" sampleSelState [sampleMenuA, sampleMenuB] 1 (by decide)⟩

/-! Lemmas relating the tag-value pipeline to the string-restricted
pipeline, and the C7 theorems. -/

lemma strSafe_proto_none {m : List (String × String)} {s : String}
    (h : strSafe m s = true) (hown : assocL m (jsTrim (jsLower s)) = none) :
    protoLookup (jsTrim (jsLower s)) = none := by
  simp only [strSafe, hown] at h
  exact Option.isNone_iff_eq_none.mp h

lemma dietNormJs_str {s : String} (h : strSafe dietaryMap s = true) :
    dietNormJs (JsTag.str s) = Except.ok (JsTag.str (dietNorm s)) := by
  cases hown : assocL dietaryMap (jsTrim (jsLower s)) with
  | some v =>
    have hd : dietNorm s = v := by simp [dietNorm, hown]
    rw [hd]
    simp [dietNormJs, hown]
  | none =>
    have hp := strSafe_proto_none h hown
    have hd : dietNorm s = jsTrim (jsLower s) := by simp [dietNorm, hown]
    rw [hd]
    simp [dietNormJs, hown, hp]

lemma allergNormJs_str {s : String} (h : strSafe allergenMap s = true) :
    allergNormJs (JsTag.str s) = Except.ok (JsTag.str (allergNorm s)) := by
  cases hown : assocL allergenMap (jsTrim (jsLower s)) with
  | some v =>
    have hd : allergNorm s = v := by simp [allergNorm, hown]
    rw [hd]
    simp [allergNormJs, hown]
  | none =>
    have hp := strSafe_proto_none h hown
    have hd : allergNorm s
        = (if jsStartsWith s "contains" then s else "contains " ++ s) := by
      simp [allergNorm, hown]
    rw [hd]
    simp [allergNormJs, hown, hp]

lemma exists_str_list {m : List (String × String)} :
    ∀ {l : List JsTag}, (∀ t ∈ l, tagSafe m t = true) →
    ∃ ss : List String, l = ss.map JsTag.str ∧ ∀ s ∈ ss, strSafe m s = true := by
  intro l
  induction l with
  | nil => exact fun _ => ⟨[], rfl, by simp⟩
  | cons t ts ih =>
    intro h
    obtain ⟨ss, hts, hss⟩ := ih (fun x hx => h x (List.mem_cons_of_mem _ hx))
    cases t with
    | str s =>
      refine ⟨s :: ss, by rw [List.map_cons, hts], ?_⟩
      intro x hx
      rcases List.mem_cons.mp hx with rfl | hx2
      · have h1 := h (JsTag.str x) (List.mem_cons_self _ _)
        simpa [tagSafe] using h1
      · exact hss x hx2
    | protoFn n a =>
      have h1 := h (JsTag.protoFn n a) (List.mem_cons_self _ _)
      simp [tagSafe] at h1
    | protoObj =>
      have h1 := h JsTag.protoObj (List.mem_cons_self _ _)
      simp [tagSafe] at h1

lemma mapTagsJs_str_list {f : String → String} {fJs : JsTag → Except String JsTag} :
    ∀ (ss : List String), (∀ s ∈ ss, fJs (JsTag.str s) = Except.ok (JsTag.str (f s))) →
    mapTagsJs fJs (ss.map JsTag.str) = Except.ok ((ss.map f).map JsTag.str) := by
  intro ss
  induction ss with
  | nil => exact fun _ => rfl
  | cons s ts ih =>
    intro h
    have h1 := h s (List.mem_cons_self _ _)
    have h2 := ih (fun x hx => h x (List.mem_cons_of_mem _ hx))
    rw [List.map_cons]
    simp only [mapTagsJs, h1, h2]
    rfl

lemma contains_map_str (seen : List String) (a : String) :
    ((seen.map JsTag.str).contains (JsTag.str a)) = seen.contains a := by
  induction seen with
  | nil => rfl
  | cons b t ih =>
    rw [List.map_cons, List.contains_cons, List.contains_cons, ih]
    by_cases h : a = b
    · subst h; simp
    · have h2 : JsTag.str a ≠ JsTag.str b := by simpa using h
      rw [beq_eq_false_iff_ne.mpr h, beq_eq_false_iff_ne.mpr h2]

lemma dedupFirstJsAux_map : ∀ (seen l : List String),
    dedupFirstJsAux (seen.map JsTag.str) (l.map JsTag.str)
      = (dedupFirstAux seen l).map JsTag.str := by
  intro seen l
  induction l generalizing seen with
  | nil => rfl
  | cons a t ih =>
    rw [List.map_cons, dedupFirstJsAux, dedupFirstAux, contains_map_str]
    by_cases h : seen.contains a = true
    · rw [if_pos h, if_pos h]
      exact ih seen
    · rw [if_neg h, if_neg h, List.map_cons]
      have h3 : (JsTag.str a :: seen.map JsTag.str) = (a :: seen).map JsTag.str := rfl
      rw [h3, ih (a :: seen)]

lemma dedupFirstJs_map (l : List String) :
    dedupFirstJs (l.map JsTag.str) = (dedupFirst l).map JsTag.str :=
  dedupFirstJsAux_map [] l

lemma filter_jsLenPos_map (l : List String) :
    (l.map JsTag.str).filter jsLenPos
      = (l.filter (fun s => decide (0 < s.length))).map JsTag.str := by
  rw [List.filter_map]
  have h : (jsLenPos ∘ JsTag.str) = (fun s => decide (0 < s.length)) :=
    funext (fun _ => rfl)
  rw [h]

lemma tagPipelineJs_str_list {f : String → String} {fJs : JsTag → Except String JsTag}
    (ss : List String) (h : ∀ s ∈ ss, fJs (JsTag.str s) = Except.ok (JsTag.str (f s))) :
    tagPipelineJs fJs (ss.map JsTag.str) = Except.ok ((tagPipeline f ss).map JsTag.str) := by
  unfold tagPipelineJs
  rw [mapTagsJs_str_list ss h]
  show Except.ok ((dedupFirstJs ((ss.map f).map JsTag.str)).filter jsLenPos) = _
  rw [dedupFirstJs_map, filter_jsLenPos_map]
  rfl

lemma dietaryMap_vals_strSafe : ∀ p ∈ dietaryMap, strSafe dietaryMap p.2 = true := by
  decide

lemma allergenMap_vals_strSafe : ∀ p ∈ allergenMap, strSafe allergenMap p.2 = true := by
  decide

lemma jsTrim_contains_prefix (w : String) :
    ∃ u, (jsTrim ("contains " ++ w)).data = "contains".data ++ u := by
  have hfront : trimFront (("contains " ++ w).data) = "contains ".data ++ w.data := by
    rw [String.data_append]
    show List.dropWhile wsChar ('c' :: ("ontains ".data ++ w.data)) = _
    rw [List.dropWhile_cons, if_neg (by decide)]
    rfl
  show ∃ u, trimBack (trimFront (("contains " ++ w).data)) = "contains".data ++ u
  rw [hfront]
  unfold trimBack
  rw [List.reverse_append, List.dropWhile_append]
  by_cases hw : (List.dropWhile wsChar w.data.reverse).isEmpty = true
  · rw [if_pos hw]
    exact ⟨[], by decide⟩
  · rw [if_neg hw]
    refine ⟨' ' :: (List.dropWhile wsChar w.data.reverse).reverse, ?_⟩
    rw [List.reverse_append, List.reverse_reverse]
    rfl

lemma protoProps_take_ne_contains :
    ∀ p ∈ objectProtoProps, List.take 8 p.1.data ≠ "contains".data := by
  decide

lemma protoLookup_none_of_contains {s : String} {u : List Char}
    (h : s.data = "contains".data ++ u) : protoLookup s = none := by
  apply assocL_eq_none
  intro p hp heq
  have hd : p.1.data = "contains".data ++ u := by rw [← heq]; exact h
  have ht : List.take 8 p.1.data = "contains".data := by
    rw [hd]
    conv_lhs => rw [show (8 : Nat) = ("contains".data).length from rfl]
    exact List.take_left _ _
  exact protoProps_take_ne_contains p hp ht

lemma dietary_out_safe {ss : List String} (h : ∀ s ∈ ss, strSafe dietaryMap s = true) :
    ∀ x ∈ standardizeDietaryInfo ss, strSafe dietaryMap x = true := by
  intro x hx
  simp only [standardizeDietaryInfo, tagPipeline] at hx
  have hx2 := (List.mem_filter.mp hx).1
  obtain ⟨y, hy, rfl⟩ := List.mem_map.mp (mem_dedupFirst hx2)
  cases hown : assocL dietaryMap (jsTrim (jsLower y)) with
  | some v =>
    have hd : dietNorm y = v := by simp [dietNorm, hown]
    rw [hd]
    exact dietaryMap_vals_strSafe _ (assocL_mem hown)
  | none =>
    have hp := strSafe_proto_none (h y hy) hown
    have hd : dietNorm y = jsTrim (jsLower y) := by simp [dietNorm, hown]
    rw [hd]
    simp only [strSafe, norm_str_fix, hown, hp, Option.isNone_none]

lemma allergen_out_safe {ss : List String} (h : ∀ s ∈ ss, strSafe allergenMap s = true) :
    ∀ x ∈ standardizeAllergenInfo ss, strSafe allergenMap x = true := by
  intro x hx
  simp only [standardizeAllergenInfo, tagPipeline] at hx
  have hx2 := (List.mem_filter.mp hx).1
  obtain ⟨y, hy, rfl⟩ := List.mem_map.mp (mem_dedupFirst hx2)
  cases hown : assocL allergenMap (jsTrim (jsLower y)) with
  | some v =>
    have hd : allergNorm y = v := by simp [allergNorm, hown]
    rw [hd]
    exact allergenMap_vals_strSafe _ (assocL_mem hown)
  | none =>
    by_cases hc : jsStartsWith y "contains" = true
    · have hd : allergNorm y = y := by simp [allergNorm, hown, hc]
      rw [hd]
      exact h y hy
    · have hd : allergNorm y = "contains " ++ y := by simp [allergNorm, hown, hc]
      rw [hd]
      have hn : jsTrim (jsLower ("contains " ++ y)) = jsTrim ("contains " ++ jsLower y) := by
        rw [jsLower_contains_append]
      obtain ⟨u, hu⟩ := jsTrim_contains_prefix (jsLower y)
      have hown2 : assocL allergenMap (jsTrim (jsLower ("contains " ++ y))) = none := by
        rw [hn]
        apply assocL_allergen_none_of_head_c
        rw [hu]
        rfl
      have hp2 : protoLookup (jsTrim (jsLower ("contains " ++ y))) = none := by
        rw [hn]
        exact protoLookup_none_of_contains hu
      simp only [strSafe, hown2, hp2, Option.isNone_none]

lemma enrichMenuItemJs_eq (it : MenuItemJs) {d a : List JsTag}
    (hd : standardizeDietaryInfoJs it.dietary = Except.ok d)
    (ha : standardizeAllergenInfoJs it.allergens = Except.ok a) :
    enrichMenuItemJs it = Except.ok
      { it with price := enrichPrice it.price, dietary := d, allergens := a } := by
  unfold enrichMenuItemJs
  rw [hd, ha]
  rfl

lemma enrichMenuItemJs_ok_fixpoint {it : MenuItemJs}
    (hp : enrichPrice it.price = it.price)
    (hd : standardizeDietaryInfoJs it.dietary = Except.ok it.dietary)
    (ha : standardizeAllergenInfoJs it.allergens = Except.ok it.allergens) :
    enrichMenuItemJs it = Except.ok it := by
  rw [enrichMenuItemJs_eq it hd ha, hp]

/-- C7 (counterexample): the valid item carrying the dietary tag
`constructor` is not normalization-idempotent in the program: the
property read hits `Object.prototype.constructor`, a truthy function
of `length` 1 that survives the size filter, and the second
normalization pass throws a TypeError on it instead of returning the
same item. -/
theorem enrichMenuItem_proto_tag_not_idem :
    menuItemJsValid ctorTagItem = true ∧
    enrichMenuItemJs ctorTagItem = Except.ok ctorTagItemOnce ∧
    ctorTagItemOnce.dietary = [JsTag.protoFn "constructor" 1] ∧
    enrichMenuItemJs ctorTagItemOnce
      = Except.error "TypeError: item.toLowerCase is not a function" :=
  ⟨rfl, rfl, rfl, rfl⟩

/-- C7 (amended): MenuItem normalization is idempotent on every valid
item whose dietary and allergen tags are strings whose normalized
forms do not collide with an `Object.prototype` property name (such a
collision makes the map step yield an inherited non-string value):
one enrichment pass succeeds, and a second pass returns exactly the
same item. -/
theorem menuItem_normalization_idem_amended (it : MenuItemJs)
    (hd : it.dietary.all (tagSafe dietaryMap) = true)
    (ha : it.allergens.all (tagSafe allergenMap) = true) :
    ∃ it1, enrichMenuItemJs it = Except.ok it1 ∧ enrichMenuItemJs it1 = Except.ok it1 := by
  obtain ⟨ss, hss, hssSafe⟩ := exists_str_list (List.all_eq_true.mp hd)
  obtain ⟨tt, htt, httSafe⟩ := exists_str_list (List.all_eq_true.mp ha)
  have hD1 : standardizeDietaryInfoJs it.dietary
      = Except.ok ((standardizeDietaryInfo ss).map JsTag.str) := by
    rw [hss]
    exact tagPipelineJs_str_list ss (fun s hs => dietNormJs_str (hssSafe s hs))
  have hA1 : standardizeAllergenInfoJs it.allergens
      = Except.ok ((standardizeAllergenInfo tt).map JsTag.str) := by
    rw [htt]
    exact tagPipelineJs_str_list tt (fun s hs => allergNormJs_str (httSafe s hs))
  refine ⟨_, enrichMenuItemJs_eq it hD1 hA1, ?_⟩
  have hD2 : tagPipelineJs dietNormJs ((standardizeDietaryInfo ss).map JsTag.str)
      = Except.ok ((standardizeDietaryInfo ss).map JsTag.str) := by
    have h2 := tagPipelineJs_str_list (standardizeDietaryInfo ss)
      (fun s hs => dietNormJs_str (dietary_out_safe hssSafe s hs))
    rw [show tagPipeline dietNorm (standardizeDietaryInfo ss)
          = standardizeDietaryInfo ss from standardizeDietaryInfo_idem ss] at h2
    exact h2
  have hA2 : tagPipelineJs allergNormJs ((standardizeAllergenInfo tt).map JsTag.str)
      = Except.ok ((standardizeAllergenInfo tt).map JsTag.str) := by
    have h2 := tagPipelineJs_str_list (standardizeAllergenInfo tt)
      (fun s hs => allergNormJs_str (allergen_out_safe httSafe s hs))
    rw [show tagPipeline allergNorm (standardizeAllergenInfo tt)
          = standardizeAllergenInfo tt from standardizeAllergenInfo_idem tt] at h2
    exact h2
  apply enrichMenuItemJs_ok_fixpoint
  · show enrichPrice (enrichPrice it.price) = enrichPrice it.price
    exact enrichPrice_idem it.price
  · show standardizeDietaryInfoJs ((standardizeDietaryInfo ss).map JsTag.str)
        = Except.ok ((standardizeDietaryInfo ss).map JsTag.str)
    exact hD2
  · show standardizeAllergenInfoJs ((standardizeAllergenInfo tt).map JsTag.str)
        = Except.ok ((standardizeAllergenInfo tt).map JsTag.str)
    exact hA2

/-- C7 (amended, witness): the amended idempotence theorem
instantiated at a concrete item with safe tags. -/
theorem menuItem_normalization_idem_amended_witness :
    safeTagItem.dietary.all (tagSafe dietaryMap) = true ∧
    safeTagItem.allergens.all (tagSafe allergenMap) = true ∧
    (∃ it1, enrichMenuItemJs safeTagItem = Except.ok it1 ∧
      enrichMenuItemJs it1 = Except.ok it1) :=
  ⟨by decide, by decide,
   menuItem_normalization_idem_amended safeTagItem (by decide) (by decide)⟩

end Tunisafka
